import Mathlib

/-!
Verification of the persistent configuration controller
(`music_assistant/controllers/config.py`): a shallow embedding of the
hierarchical path-addressed configuration store, its secret cipher, the
load/migration pipeline and the provider/player lifecycle operations,
together with proofs of the specified properties.

Python dictionaries are embedded as insertion-ordered association lists
(`List (String × Value)`); dictionary mutation is modelled by pure update
functions that preserve entry order exactly as CPython dictionaries do.
Operations that can raise in Python return `Except`, with the error payload
carrying the (possibly partially mutated) store where that matters.
-/

/-- JSON-like values stored in the configuration tree (the duck-typed leaf
values of the store: null, booleans, numbers, strings, sequences and nested
string-keyed mappings). -/
inductive Value where
  | vNull : Value
  | vBool : Bool → Value
  | vInt : Int → Value
  | vStr : String → Value
  | vList : List Value → Value
  | vObj : List (String × Value) → Value

/-- A Python dict, as an insertion-ordered association list. -/
abbrev Obj := List (String × Value)

/-- Lookup of a key in a dict (`d.get(k)` / `d[k]`): first matching entry. -/
def alLookup : Obj → String → Option Value
  | [], _ => none
  | (k, v) :: t, key => if k = key then some v else alLookup t key

/-- Assignment `d[k] = v`: updates the first entry with that key in place
(keeping its position, as CPython dicts do) or appends a new entry. -/
def alInsert : Obj → String → Value → Obj
  | [], key, val => [(key, val)]
  | (k, v) :: t, key, val =>
    if k = key then (k, val) :: t else (k, v) :: alInsert t key val

/-- Deletion `d.pop(k)` / `del d[k]`: removes the first entry with that key. -/
def alErase : Obj → String → Obj
  | [], _ => []
  | (k, v) :: t, key => if k = key then t else (k, v) :: alErase t key

/-- Distinctness of the keys of a dict.  Association lists produced by
parsing JSON (and preserved by all dict operations) never carry duplicate
keys; lemmas that depend on this take it as a hypothesis. -/
def keysNodup : Obj → Bool
  | [] => true
  | (k, _) :: t => (alLookup t k).isNone && keysNodup t

/-- Python truthiness of a stored value (`bool(v)`). -/
def pyTruthy : Value → Bool
  | .vNull => false
  | .vBool b => b
  | .vInt n => n != 0
  | .vStr s => s ≠ ""
  | .vList xs => !xs.isEmpty
  | .vObj l => !l.isEmpty

/-- Python `str.startswith`, on the underlying character lists. -/
def startswith (p s : String) : Bool := p.data.isPrefixOf s.data

/-- Contiguous-sublist check on character lists (structural, so it
evaluates by kernel reduction). -/
def charsInfix (needle : List Char) : List Char → Bool
  | [] => needle.isEmpty
  | c :: t => needle.isPrefixOf (c :: t) || charsInfix needle t

/-- Python `needle in hay` for strings: substring containment. -/
def strHas (hay needle : String) : Bool := charsInfix needle.data hay.data

/-- Python `k in xs` for a list and a string `k`: membership by equality
(a string only ever compares equal to an equal string). -/
def listHasStr (xs : List Value) (k : String) : Bool :=
  xs.any fun x => match x with
    | .vStr s => s = k
    | _ => false

/-- Python `str(x)` for the scalar values that reach string formatting in
the code under study. Containers get a simple stand-in rendering (their
exact `repr` text is irrelevant to every property proved here). -/
def pyFormat : Value → String
  | .vNull => "None"
  | .vBool true => "True"
  | .vBool false => "False"
  | .vInt n => toString n
  | .vStr s => s
  | .vList _ => "[...]"
  | .vObj _ => "{...}"

/-- Splitting helper for `str.split("/")`: structural recursion over the
character list so that concrete paths evaluate by kernel reduction. -/
def splitGo (sep : Char) : List Char → List Char → List String
  | [], acc => [String.mk acc.reverse]
  | c :: rest, acc =>
    if c = sep then String.mk acc.reverse :: splitGo sep rest []
    else splitGo sep rest (c :: acc)

/-- Python `key.split("/")`, used by every path-addressed store operation. -/
def splitPath (s : String) : List String := splitGo '/' s.data []

/-- A string containing no path separator (so that `f"{a}/{b}"` splits back
into the expected segments). -/
def noSlash (s : String) : Bool := s.data.all (· ≠ '/')

example : splitPath "providers/demo" = ["providers", "demo"] := rfl
example : splitPath "a" = ["a"] := rfl
example : splitPath "a//b" = ["a", "", "b"] := rfl
example : alLookup [("a", .vInt 1)] "a" = some (.vInt 1) := rfl

/-! ## Path-addressed store operations

Embeddings of `ConfigController.get` / `set` / `set_default` / `remove`
(config.py lines 112-171).  Each walks the list of `/`-separated subkeys.
Python raises (`TypeError` on subscripting a scalar, `AttributeError` on
`setdefault`/`pop` of a non-dict) exactly where the embedding returns
`.error`; for `set`/`remove` the error payload is the store at the moment
the exception propagates (mutation is in place in the source). -/

/-- `ConfigController.get`: walk the tree; a missing segment or a terminal
`None` yields the default.  An intermediate segment holding a string/list
returns the default when the Python `in` test misses, and raises on the
subsequent subscript when it hits; other scalars raise on `in` itself. -/
def getGo : Obj → List String → Value → Except Unit Value
  | _, [], d => .ok d
  | parent, [k], d =>
    match alLookup parent k with
    | none => .ok d
    | some .vNull => .ok d
    | some v => .ok v
  | parent, k :: k' :: rest, d =>
    match alLookup parent k with
    | none => .ok d
    | some (.vObj child) => getGo child (k' :: rest) d
    | some (.vStr s) => if strHas s k' then .error () else .ok d
    | some (.vList xs) => if listHasStr xs k' then .error () else .ok d
    | some _ => .error ()

/-- `ConfigController.set`: walk/create intermediate mapping segments and
assign the terminal value.  An existing non-mapping intermediate raises
(`.error`); the payload is the store at that point (unchanged, since
`setdefault` never overwrites an existing key). -/
def setGo : Obj → List String → Value → Except Obj Obj
  | parent, [], _ => .ok parent
  | parent, [k], v => .ok (alInsert parent k v)
  | parent, k :: k' :: rest, v =>
    match alLookup parent k with
    | none =>
      match setGo [] (k' :: rest) v with
      | .ok child => .ok (alInsert parent k (.vObj child))
      | .error child => .error (alInsert parent k (.vObj child))
    | some (.vObj child) =>
      match setGo child (k' :: rest) v with
      | .ok child2 => .ok (alInsert parent k (.vObj child2))
      | .error child2 => .error (alInsert parent k (.vObj child2))
    | some _ => .error parent

/-- `ConfigController.remove`: walk without creating missing intermediates
(returning early, without scheduling a save, if a segment is absent) and pop
the terminal key.  The returned flag records whether the terminal pop was
reached (i.e. whether `self.save()` runs). -/
def removeGo : Obj → List String → Except Obj (Obj × Bool)
  | parent, [] => .ok (parent, true)
  | parent, k :: rest =>
    match alLookup parent k with
    | none => .ok (parent, false)
    | some v =>
      match rest with
      | [] => .ok (alErase parent k, true)
      | k' :: _ =>
        match v with
        | .vObj child =>
          match removeGo child rest with
          | .ok (child2, saved) => .ok (alInsert parent k (.vObj child2), saved)
          | .error child2 => .error (alInsert parent k (.vObj child2))
        | .vStr s => if strHas s k' then .error parent else .ok (parent, false)
        | .vList xs => if listHasStr xs k' then .error parent else .ok (parent, false)
        | _ => .error parent

/-- `self.get(key, default)` with a string path. -/
def configGet (data : Obj) (key : String) (d : Value) : Except Unit Value :=
  getGo data (splitPath key) d

/-- `self.set(key, value)` with a string path. -/
def configSet (data : Obj) (key : String) (v : Value) : Except Obj Obj :=
  setGo data (splitPath key) v

/-- `self.remove(key)` with a string path. -/
def configRemove (data : Obj) (key : String) : Except Obj (Obj × Bool) :=
  removeGo data (splitPath key)

/-- Python `cur_value == "__MISSING__"`: a stored value compares equal to
the sentinel string exactly when it is that string. -/
def isMissingSentinel : Value → Bool
  | .vStr s => s = "__MISSING__"
  | _ => false

/-- `ConfigController.set_default` (config.py lines 147-152): read the
current value with the `"__MISSING__"` sentinel as default and set the
given default value only when the sentinel comes back. -/
def set_default (data : Obj) (key : String) (default_value : Value) :
    Except Obj Obj :=
  match configGet data key (.vStr "__MISSING__") with
  | .error _ => .error data
  | .ok cur =>
    if isMissingSentinel cur then configSet data key default_value
    else .ok data

/-! ## Secret cipher

`encrypt_string` / `decrypt_string` (config.py lines 772-788).  The Fernet
primitives live in an external library; they are passed in as functions
(`fenc`, and `fdec` returning `.error` on `InvalidToken`). -/

/-- Modelled from the spec: the fixed marker prefix distinguishing an
encrypted string value from a plain one (`ENCRYPT_SUFFIX` is imported from
`music_assistant.constants`, which is outside the sources under study). -/
def ENCRYPT_SUFFIX : String := "_encrypted_"

/-- Python `str.replace(old, new)`: replace every non-overlapping
occurrence, scanning left to right.  Fuel-indexed structural recursion so
that concrete calls evaluate by kernel reduction; the fuel is the length of
the haystack, which bounds the number of scanning steps. -/
def charsReplace (old new : List Char) : Nat → List Char → List Char
  | _, [] => []
  | 0, hay => hay
  | fuel + 1, c :: t =>
    if old.isPrefixOf (c :: t) && !old.isEmpty then
      new ++ charsReplace old new fuel (List.drop (old.length - 1) t)
    else c :: charsReplace old new fuel t

/-- Python `s.replace(old, new)` for a non-empty pattern. -/
def strReplace (s old new : String) : String :=
  String.mk (charsReplace old.data new.data s.data.length s.data)

example : strReplace "_encrypted_abc" "_encrypted_" "" = "abc" := rfl
example : strReplace "x_encrypted_y_encrypted_" "_encrypted_" "" = "xy" := rfl

/-- `ConfigController.encrypt_string`: idempotent marker-prefixing
encryption. -/
def encrypt_string (fenc : String → String) (str_value : String) : String :=
  if startswith ENCRYPT_SUFFIX str_value then str_value
  else ENCRYPT_SUFFIX ++ fenc str_value

/-- `ConfigController.decrypt_string`: empty and unmarked strings pass
through unchanged; a marked string has every marker occurrence removed
(`str.replace`) and is handed to Fernet, whose `InvalidToken` becomes a
typed error. -/
def decrypt_string (fdec : String → Except Unit String)
    (encrypted_str : String) : Except Unit String :=
  if encrypted_str = "" then .ok encrypted_str
  else if !startswith ENCRYPT_SUFFIX encrypted_str then .ok encrypted_str
  else
    match fdec (strReplace encrypted_str ENCRYPT_SUFFIX "") with
    | .ok r => .ok r
    | .error _ => .error ()

/-! ## Value equality

Python `==` between stored values, needed by the merge-style entity update.
All comparisons the code performs are between like-typed JSON values, where
Python equality coincides with structural equality. -/

mutual

def valueEq : Value → Value → Bool
  | .vNull, .vNull => true
  | .vBool a, .vBool b => a == b
  | .vInt a, .vInt b => a == b
  | .vStr a, .vStr b => a == b
  | .vList xs, .vList ys => valueListEq xs ys
  | .vObj a, .vObj b => valueObjEq a b
  | _, _ => false

def valueListEq : List Value → List Value → Bool
  | [], [] => true
  | x :: xs, y :: ys => valueEq x y && valueListEq xs ys
  | _, _ => false

def valueObjEq : List (String × Value) → List (String × Value) → Bool
  | [], [] => true
  | (k, v) :: t, (k2, v2) :: t2 => k == k2 && valueEq v v2 && valueObjEq t t2
  | _, _ => false

end

/-! ## Controller state and effects

The pieces of controller state the specified properties observe: the data
tree, the number of debounced save schedules (`self.save()` calls) and the
number of emitted events (`signal_event` calls). -/

structure CtrlState where
  data : Obj
  saves : Nat
  events : Nat

/-- `self.set(...)` at the controller level: a successful set also schedules
a debounced save; an exception propagates before `self.save()` runs. -/
def ctrlSet (st : CtrlState) (key : String) (v : Value) :
    Except CtrlState CtrlState :=
  match configSet st.data key v with
  | .ok d => .ok { data := d, saves := st.saves + 1, events := st.events }
  | .error d => .error { data := d, saves := st.saves, events := st.events }

/-- `self.remove(...)` at the controller level: the early return on a
missing segment skips the save. -/
def ctrlRemove (st : CtrlState) (key : String) : Except CtrlState CtrlState :=
  match configRemove st.data key with
  | .ok (d, saved) =>
    .ok { data := d, saves := st.saves + (if saved then 1 else 0),
          events := st.events }
  | .error d => .error { data := d, saves := st.saves, events := st.events }

/-- Modelled from the spec: the fixed top-level path segments under which
entities are stored (`CONF_PROVIDERS`/`CONF_PLAYERS`/`CONF_PLAYER_DSP`/
`CONF_CORE` and the onboard flag `CONF_ONBOARD_DONE` are imported from
`music_assistant.constants`, which is outside the sources under study). -/
def CONF_PROVIDERS : String := "providers"

/-- Modelled from the spec: top-level segment for player entities. -/
def CONF_PLAYERS : String := "players"

/-- Modelled from the spec: top-level segment for per-player DSP entities. -/
def CONF_PLAYER_DSP : String := "player-dsp"

/-- Modelled from the spec: the top-level onboard-done flag. -/
def CONF_ONBOARD_DONE : String := "onboard_done"

/-- The error taxonomy of the lifecycle operations (KeyError/ValueError/
RuntimeError/typed errors raised by config.py, collapsed to their kind). -/
inductive CtrlErr where
  | notFound
  | unknownDomain
  | dependencyUnmet
  | multiInstanceForbidden
  | invalidConfig
  | activationFailed
  | removalForbidden
  | disableNotAllowed
  | actionUnavailable
  | typeError
  deriving DecidableEq, Repr

/-- Static descriptor of a provider domain (the manifest — external
collaborator data described in the spec glossary). -/
structure Manifest where
  domain : String
  name : String
  ptype : String
  multi_instance : Bool
  depends_on : Option String
  builtin : Bool
  allow_disable : Bool
  deriving Repr

/-- First manifest whose domain matches (the `for ... break / else raise`
lookup pattern used throughout config.py). -/
def findManifest (manifests : List Manifest) (domain : String) :
    Option Manifest :=
  manifests.find? (·.domain == domain)

/-- The instance id allocated by `_add_provider_config`: stable for
single-instance domains, `domain + "--" + random-suffix` otherwise (the
random suffix is passed in). -/
def instanceIdOf (m : Manifest) (sfx : String) : String :=
  if m.multi_instance then m.domain ++ "--" ++ sfx else m.domain

/-- `if prov.depends_on and not self.mass.get_provider(prov.depends_on)`:
a falsy (absent or empty) dependency is not checked; otherwise an active
instance of the dependency must exist. -/
def depSatisfied (m : Manifest) (active : List String) : Bool :=
  match m.depends_on with
  | some dep => if dep = "" then true else active.contains dep
  | none => true

/-- `get_provider_configs(provider_domain=...)` as invoked by
`_add_provider_config` (include_values false, no type filter): collect the
instance ids of stored provider configs whose domain equals the requested
domain and belongs to a known manifest.  A non-dict providers value or a
config without a `domain` key raises; a matching config must parse, which
requires its `instance_id`. -/
def providerIdsGo (manifests : List Manifest) (pd : String) :
    Obj → Except Unit (List String)
  | [] => .ok []
  | (_, conf) :: t =>
    match conf with
    | .vObj co =>
      match alLookup co "domain" with
      | some (.vStr s) =>
        if s == pd then
          if manifests.any (·.domain == s) then
            match alLookup co "instance_id" with
            | some (.vStr iid) =>
              match providerIdsGo manifests pd t with
              | .ok rest => .ok (iid :: rest)
              | .error e => .error e
            | _ => .error ()
          else providerIdsGo manifests pd t
        else providerIdsGo manifests pd t
      | some _ => providerIdsGo manifests pd t
      | none => .error ()
    | _ => .error ()

/-- The stored providers dict (`self.get(CONF_PROVIDERS, {})`), with the
instance-id collection of `get_provider_configs` applied to it. -/
def providerConfigIds (manifests : List Manifest) (data : Obj)
    (provider_domain : String) : Except Unit (List String) :=
  match configGet data CONF_PROVIDERS (.vObj []) with
  | .error _ => .error ()
  | .ok (.vObj l) => providerIdsGo manifests provider_domain l
  | .ok _ => .error ()

/-- Modelled from the spec: `ProviderConfig.parse(...).to_raw()` from the
external models package — the stored entity shape
`(type, domain, instance_id, name?, default_name, enabled, values)`; a
freshly added instance is enabled. -/
def providerConfigToRaw (m : Manifest) (iid : String) (values : Obj) : Obj :=
  [("type", .vStr m.ptype), ("domain", .vStr m.domain),
   ("instance_id", .vStr iid), ("default_name", .vStr m.name),
   ("enabled", .vBool true), ("values", .vObj values)]

/-- `_add_provider_config` (config.py lines 950-1017): manifest lookup,
dependency check, multi-instance check, instance-id allocation, validation
strictly before persistence, persist, then activation through
`load_provider_config`; on activation failure the just-persisted entity is
removed again and the error propagates.  The external collaborators enter
as parameters: the activation outcome `loadOk`, the validation outcome
`validateOk` and the random suffix `sfx`. -/
def addProviderConfig (manifests : List Manifest) (active : List String)
    (sfx : String) (validateOk loadOk : Bool) (st : CtrlState)
    (provider_domain : String) (values : Obj) :
    CtrlState × Except CtrlErr String :=
  match findManifest manifests provider_domain with
  | none => (st, .error .unknownDomain)
  | some m =>
    if !depSatisfied m active then (st, .error .dependencyUnmet)
    else
      match providerConfigIds manifests st.data provider_domain with
      | .error _ => (st, .error .typeError)
      | .ok existing =>
        if !existing.isEmpty && !m.multi_instance then
          (st, .error .multiInstanceForbidden)
        else if !validateOk then (st, .error .invalidConfig)
        else
          match ctrlSet st (CONF_PROVIDERS ++ "/" ++ instanceIdOf m sfx)
              (.vObj (providerConfigToRaw m (instanceIdOf m sfx) values)) with
          | .error st1 => (st1, .error .typeError)
          | .ok st1 =>
            if loadOk then (st1, .ok (instanceIdOf m sfx))
            else
              match ctrlRemove st1
                  (CONF_PROVIDERS ++ "/" ++ instanceIdOf m sfx) with
              | .ok st2 => (st2, .error .activationFailed)
              | .error st2 => (st2, .error .typeError)

/-- `get_provider_config` up to the point where the raw stored entity and
its manifest have been resolved (config.py lines 195-211): a falsy stored
value raises KeyError ("No config found", i.e. not found); the stored
domain must name a known manifest. -/
def getProviderConfigRaw (manifests : List Manifest) (data : Obj)
    (instance_id : String) : Except CtrlErr Obj :=
  match configGet data (CONF_PROVIDERS ++ "/" ++ instance_id) (.vObj []) with
  | .error _ => .error .typeError
  | .ok v =>
    if pyTruthy v then
      match v with
      | .vObj raw =>
        match alLookup raw "domain" with
        | some (.vStr dom) =>
          if (findManifest manifests dom).isSome then .ok raw
          else .error .unknownDomain
        | some _ => .error .unknownDomain
        | none => .error .typeError
      | _ => .error .typeError
    else .error .notFound

/-- The stored values mapping of an entity (`config.values`, raw form). -/
def valuesOf (raw : Obj) : Obj :=
  match alLookup raw "values" with
  | some (.vObj l) => l
  | _ => []

/-- The base (non-values) keys of an entity, config.py line 64. -/
def BASE_KEYS : List String :=
  ["enabled", "name", "available", "default_name", "provider", "type"]

/-- Modelled from the spec: `Config.update(values)` from the external models
package — merge-style update where only supplied keys change; a base key
updates the entity field, any other key updates the values mapping; the
returned change set holds the keys whose supplied value differs from the
stored one. -/
def changedKeys (raw : Obj) (values : Obj) : List String :=
  (values.filter fun kv =>
    match (if BASE_KEYS.contains kv.1 then alLookup raw kv.1
           else alLookup (valuesOf raw) kv.1) with
    | some v => !valueEq v kv.2
    | none => true).map Prod.fst

/-- Modelled from the spec: the raw entity after `Config.update(values)`
(merge-style application of the supplied keys). -/
def applyUpdate (raw : Obj) (values : Obj) : Obj :=
  values.foldl (fun acc kv =>
    if BASE_KEYS.contains kv.1 then alInsert acc kv.1 kv.2
    else alInsert acc "values" (.vObj (alInsert (valuesOf acc) kv.1 kv.2)))
    raw

/-- Modelled from the spec: the parsed entity's enabled flag (defaulting to
enabled when the raw entity does not store one). -/
def enabledOf (raw : Obj) : Bool :=
  match alLookup raw "enabled" with
  | some v => pyTruthy v
  | none => true

/-- The stored domain of a raw entity. -/
def domainOf (raw : Obj) : Option String :=
  match alLookup raw "domain" with
  | some (.vStr s) => some s
  | _ => none

/-- `_update_provider_config` (config.py lines 912-948): load the current
entity, compute the merged change set; when nothing changed and the stored
enabled flag matches the observed runtime availability, return without
validating, persisting or notifying; otherwise validate, persist, then
either activate (enabled) or run the disable path (manifest permitting).
External collaborators enter as parameters: the runtime availability
`available`, the validation outcome `validateOk` and the activation outcome
`loadOk`; unload and player-manager cleanup (`cleanup_config=False`) do not
touch the store. -/
def updateProviderConfig (manifests : List Manifest)
    (available validateOk loadOk : Bool) (st : CtrlState)
    (instance_id : String) (values : Obj) : CtrlState × Except CtrlErr Obj :=
  match getProviderConfigRaw manifests st.data instance_id with
  | .error e => (st, .error e)
  | .ok raw =>
    if (changedKeys raw values).isEmpty &&
        (enabledOf (applyUpdate raw values) == available) then (st, .ok raw)
    else if !validateOk then (st, .error .invalidConfig)
    else
      match ctrlSet st (CONF_PROVIDERS ++ "/" ++ instance_id)
          (.vObj (applyUpdate raw values)) with
      | .error st1 => (st1, .error .typeError)
      | .ok st1 =>
        if enabledOf (applyUpdate raw values) then
          if loadOk then (st1, .ok (applyUpdate raw values))
          else (st1, .error .activationFailed)
        else
          match domainOf raw with
          | none => (st1, .error .typeError)
          | some dom =>
            match findManifest manifests dom with
            | none => (st1, .error .unknownDomain)
            | some m =>
              if !m.allow_disable then (st1, .error .disableNotAllowed)
              else (st1, .ok (applyUpdate raw values))

/-- The `onboard_done` property (config.py lines 99-102):
`self.get(CONF_ONBOARD_DONE, False)`. -/
def onboard_done (data : Obj) : Except Unit Value :=
  configGet data CONF_ONBOARD_DONE (.vBool false)

/-- `save_provider_config` (config.py lines 263-285): dispatch to update or
add; on success set the top-level onboard-done flag to `True` (a normal
`self.set`, hence a debounced save), then return the full config via
`get_provider_config`. -/
def saveProviderConfig (manifests : List Manifest) (active : List String)
    (sfx : String) (available validateOk loadOk : Bool) (st : CtrlState)
    (provider_domain : String) (values : Obj) (instance_id : Option String) :
    CtrlState × Except CtrlErr Obj :=
  let inner : CtrlState × Except CtrlErr String :=
    match instance_id with
    | some iid =>
      match updateProviderConfig manifests available validateOk loadOk st
          iid values with
      | (st1, .ok _) => (st1, .ok iid)
      | (st1, .error e) => (st1, .error e)
    | none =>
      addProviderConfig manifests active sfx validateOk loadOk st
        provider_domain values
  match inner with
  | (st1, .error e) => (st1, .error e)
  | (st1, .ok iid) =>
    match ctrlSet st1 CONF_ONBOARD_DONE (.vBool true) with
    | .error st2 => (st2, .error .typeError)
    | .ok st2 =>
      match getProviderConfigRaw manifests st2.data iid with
      | .error e => (st2, .error e)
      | .ok raw => (st2, .ok raw)

/-! ## Removal and its cascades -/

/-- A player as seen in the runtime player-manager registry (external
collaborator state). -/
structure RegPlayer where
  player_id : String
  provider : String
  available : Bool
  active_group : Option String

/-- The runtime view of a loaded provider, as far as the removal paths
observe it. -/
structure ProvInfo where
  supportsRemovePlayer : Bool

/-- `remove_player_config` (config.py lines 421-455) restricted to its
store effects once the guard checks have passed: remove the player config
and then its DSP config. -/
def removePlayerStoreOps (st : CtrlState) (player_id : String) :
    CtrlState × Except CtrlErr Unit :=
  match ctrlRemove st (CONF_PLAYERS ++ "/" ++ player_id) with
  | .error st1 => (st1, .error .typeError)
  | .ok st1 =>
    match ctrlRemove st1 (CONF_PLAYER_DSP ++ "/" ++ player_id) with
    | .error st2 => (st2, .error .typeError)
    | .ok st2 => (st2, .ok ())

/-- `remove_player_config` (config.py lines 421-455): guard checks against
the runtime registry and provider features (provider-side removal, the
active-player refusal, group-membership fixup — all external effects), then
removal of the player config and of its DSP config.  `getProv` is the
runtime provider lookup `self.mass.get_provider`. -/
def removePlayerConfig (getProv : String → Option ProvInfo)
    (registry : List RegPlayer) (st : CtrlState) (player_id : String) :
    CtrlState × Except CtrlErr Unit :=
  match configGet st.data (CONF_PLAYERS ++ "/" ++ player_id) .vNull with
  | .error _ => (st, .error .typeError)
  | .ok existing =>
    if !pyTruthy existing then (st, .error .notFound)
    else
      let player := registry.find? (·.player_id == player_id)
      let playerProv : Except CtrlErr String :=
        match player with
        | some p => .ok p.provider
        | none =>
          match existing with
          | .vObj eo =>
            match alLookup eo "provider" with
            | some pv => .ok (pyFormat pv)
            | none => .error .typeError
          | _ => .error .typeError
      match playerProv with
      | .error e => (st, .error e)
      | .ok pv =>
        let pp := getProv pv
        if (pp.map (·.supportsRemovePlayer)).getD false then
          removePlayerStoreOps st player_id
        else if player.isSome && pp.isSome &&
            ((player.map (·.available)).getD false) then
          (st, .error .actionUnavailable)
        else removePlayerStoreOps st player_id

/-- Modelled from the spec: `self.mass.players.remove(pid,
cleanup_config=True)` — the player manager removes the player from its
registry and invokes the player-config removal path, which removes the
player config and its DSP config (config.py line 450 notes the
`cleanup_config` flag exists precisely to break this mutual recursion). -/
def playersRemoveCleanup (st : CtrlState) (player_id : String) : CtrlState :=
  match removePlayerStoreOps st player_id with
  | (st1, _) => st1

/-- The final sweep of `remove_provider_config` (config.py lines 310-313):
iterate a snapshot of the stored player configs and remove every one whose
`provider` field equals the removed instance id, addressing it by its
`player_id` field. -/
def sweepGo (iid : String) : List Value → CtrlState →
    CtrlState × Except CtrlErr Unit
  | [], st => (st, .ok ())
  | c :: rest, st =>
    match c with
    | .vObj co =>
      match alLookup co "provider" with
      | some pv =>
        if (match pv with | .vStr s => s == iid | _ => false) then
          match alLookup co "player_id" with
          | some pidv =>
            match ctrlRemove st (CONF_PLAYERS ++ "/" ++ pyFormat pidv) with
            | .ok st1 => sweepGo iid rest st1
            | .error st1 => (st1, .error .typeError)
          | none => (st, .error .typeError)
        else sweepGo iid rest st
      | none => (st, .error .typeError)
    | _ => (st, .error .typeError)

/-- `list(self.get(CONF_PLAYERS, {}).values())`: the snapshot the sweep
iterates. -/
def playersSnapshot (data : Obj) : Except Unit (List Value) :=
  match configGet data CONF_PLAYERS (.vObj []) with
  | .error _ => .error ()
  | .ok (.vObj l) => .ok (l.map Prod.snd)
  | .ok _ => .error ()

/-- `remove_provider_config` (config.py lines 287-313): existence and
non-builtin checks, removal of the provider entity, external unload, then
the per-type cascades — for a player-type provider, removal of the
registry-registered owned players through the player manager
(`cleanup_config=True`) followed by the snapshot sweep over the remaining
stored player configs.  Music-library cleanup is an external effect. -/
def removeProviderConfig (manifests : List Manifest)
    (registry : List RegPlayer) (st : CtrlState) (instance_id : String) :
    CtrlState × Except CtrlErr Unit :=
  match configGet st.data (CONF_PROVIDERS ++ "/" ++ instance_id) .vNull with
  | .error _ => (st, .error .typeError)
  | .ok existing =>
    if !pyTruthy existing then (st, .error .notFound)
    else
      match existing with
      | .vObj eo =>
        match alLookup eo "domain" with
        | some (.vStr dom) =>
          match findManifest manifests dom with
          | none => (st, .error .unknownDomain)
          | some m =>
            if m.builtin then (st, .error .removalForbidden)
            else
              match ctrlRemove st (CONF_PROVIDERS ++ "/" ++ instance_id) with
              | .error st1 => (st1, .error .typeError)
              | .ok st1 =>
                match alLookup eo "type" with
                | none => (st1, .error .typeError)
                | some tv =>
                  if (match tv with | .vStr s => s == "player" | _ => false)
                  then
                    let st2 := (registry.filter
                      (·.provider == instance_id)).foldl
                      (fun s p => playersRemoveCleanup s p.player_id) st1
                    match playersSnapshot st2.data with
                    | .error _ => (st2, .error .typeError)
                    | .ok snap => sweepGo instance_id snap st2
                  else (st1, .ok ())
        | some _ => (st, .error .unknownDomain)
        | none => (st, .error .typeError)
      | _ => (st, .error .typeError)

/-! ## Load-time migration pipeline

Embedding of `_migrate` (config.py lines 807-887): six ordered structural
transformations over the freshly parsed tree, threading the tree and a
`changed` flag; when any transformation reported a change the pipeline ends
with one immediate durable save.  A `.error` marks the point where the
Python code would raise out of `_migrate` (no transformation is wrapped in
a handler in the source). -/

/-- Modelled from the spec: the separator used for packed multi-values
(`MULTI_VALUE_SPLITTER` lives in the external models package). -/
def MULTI_VALUE_SPLITTER : String := ";"

/-- Modelled from the spec: the per-player output-limiter option key
(`CONF_OUTPUT_LIMITER` from `music_assistant.constants`). -/
def CONF_OUTPUT_LIMITER : String := "output_limiter"

/-- `self._data.get(key, {}).items()` on the raw dict: absent gives an
empty snapshot, a non-dict value (including an explicitly stored null)
raises on `.items()`. -/
def topItems (data : Obj) (key : String) : Except Unit Obj :=
  match alLookup data key with
  | none => .ok []
  | some (.vObj l) => .ok l
  | some _ => .error ()

/-- Write the mutated top-level dict back (Python mutates it in place; when
the key was absent the snapshot was the default `{}` and nothing is
written). -/
def topWriteBack (data : Obj) (key : String) (cur : Obj) : Obj :=
  match alLookup data key with
  | none => data
  | some _ => alInsert data key (.vObj cur)

/-- Python `"domain" not in provider_config`, over the possible stored
shapes (`in` on a number/bool/null raises `TypeError`). -/
def pyHasDomain : Value → Option Bool
  | .vObj co => some (alLookup co "domain").isSome
  | .vStr s => some (strHas s "domain")
  | .vList xs => some (listHasStr xs "domain")
  | _ => none

/-- Transformation 1 (lines 810-816): purge provider configs that lost
their `domain` field. -/
def migrateCorruptGo : Obj → Obj → Bool → Except Unit (Obj × Bool)
  | [], cur, changed => .ok (cur, changed)
  | (iid, pc) :: t, cur, changed =>
    match pyHasDomain pc with
    | none => .error ()
    | some true => migrateCorruptGo t cur changed
    | some false => migrateCorruptGo t (alErase cur iid) true

def migrateCorrupt (data : Obj) : Except Unit (Obj × Bool) := do
  let items ← topItems data CONF_PROVIDERS
  let (cur, ch) ← migrateCorruptGo items items false
  pure (topWriteBack data CONF_PROVIDERS cur, ch)

/-- Transformation 2 (lines 817-825): split a legacy comma-separated `ips`
value into `manual_discovery_ip_addresses`. -/
def migrateIpsGo : Obj → Obj → Bool → Except Unit (Obj × Bool)
  | [], cur, changed => .ok (cur, changed)
  | (iid, pc) :: t, cur, changed =>
    match pc with
    | .vObj co =>
      match alLookup co "values" with
      | some (.vObj []) => migrateIpsGo t cur changed
      | some (.vObj vs) =>
        match alLookup vs "ips" with
        | none => migrateIpsGo t cur changed
        | some ipsv =>
          if !pyTruthy ipsv then migrateIpsGo t cur changed
          else
            match ipsv with
            | .vStr s =>
              let parts := (splitGo ',' s.data []).map Value.vStr
              let vs1 := alErase
                (alInsert vs "manual_discovery_ip_addresses" (.vList parts))
                "ips"
              migrateIpsGo t
                (alInsert cur iid (.vObj (alInsert co "values" (.vObj vs1))))
                true
            | _ => .error ()
      | some v => if pyTruthy v then .error () else migrateIpsGo t cur changed
      | none => migrateIpsGo t cur changed
    | _ => .error ()

def migrateIps (data : Obj) : Except Unit (Obj × Bool) := do
  let items ← topItems data CONF_PROVIDERS
  let (cur, ch) ← migrateIpsGo items items false
  pure (topWriteBack data CONF_PROVIDERS cur, ch)

/-- Whether a stored value is a Python list. -/
def isPyList : Value → Bool
  | .vList _ => true
  | _ => false

/-- The element rewrite of transformation 3: a nested pair becomes the
packed string `f"{x[0]}{MULTI_VALUE_SPLITTER}{x[1]}"`; a short nested list
raises `IndexError`. -/
def mapSampleRates : List Value → Except Unit (List Value)
  | [] => .ok []
  | x :: t => do
    let rest ← mapSampleRates t
    match x with
    | .vList (a :: b :: _) =>
      pure (Value.vStr (pyFormat a ++ MULTI_VALUE_SPLITTER ++ pyFormat b)
        :: rest)
    | .vList _ => .error ()
    | _ => pure (x :: rest)

/-- Transformation 3 (lines 826-840): normalise `sample_rates`.  Note the
source quirks reproduced here: a non-list value is deleted and, when it is
still iterable (string/dict), the loop continues without marking a change;
iterating a non-iterable raises. -/
def migrateRatesGo : Obj → Obj → Bool → Except Unit (Obj × Bool)
  | [], cur, changed => .ok (cur, changed)
  | (pid, pc) :: t, cur, changed =>
    match pc with
    | .vObj co =>
      match alLookup co "values" with
      | some (.vObj []) => migrateRatesGo t cur changed
      | some (.vObj vs) =>
        match alLookup vs "sample_rates" with
        | none => migrateRatesGo t cur changed
        | some sr =>
          if !pyTruthy sr then migrateRatesGo t cur changed
          else
            match sr with
            | .vList xs =>
              if !xs.any isPyList then migrateRatesGo t cur changed
              else do
                let xs1 ← mapSampleRates xs
                migrateRatesGo t
                  (alInsert cur pid (.vObj (alInsert co "values"
                    (.vObj (alInsert vs "sample_rates" (.vList xs1))))))
                  true
            | .vStr _ =>
              migrateRatesGo t
                (alInsert cur pid (.vObj (alInsert co "values"
                  (.vObj (alErase vs "sample_rates")))))
                changed
            | .vObj _ =>
              migrateRatesGo t
                (alInsert cur pid (.vObj (alInsert co "values"
                  (.vObj (alErase vs "sample_rates")))))
                changed
            | _ => .error ()
      | some v => if pyTruthy v then .error () else migrateRatesGo t cur changed
      | none => migrateRatesGo t cur changed
    | _ => .error ()

def migrateRates (data : Obj) : Except Unit (Obj × Bool) := do
  let items ← topItems data CONF_PLAYERS
  let (cur, ch) ← migrateRatesGo items items false
  pure (topWriteBack data CONF_PLAYERS cur, ch)

/-- Python `x is None` for a `.get` result: absent key or stored null. -/
def getIsNone : Option Value → Bool
  | none => true
  | some .vNull => true
  | some _ => false

/-- Transformation 4 (lines 841-858): retire the per-DSP `output_limiter`
flag, moving a disabled limiter of an enabled DSP into the owning player's
values.  The fold threads both the DSP dict and the whole tree (the player
update reads `self._data` live). -/
def migrateLimiterGo : Obj → Obj → Obj → Bool →
    Except Unit (Obj × Obj × Bool)
  | [], dspCur, dataCur, changed => .ok (dspCur, dataCur, changed)
  | (pid, dsp) :: t, dspCur, dataCur, changed =>
    match dsp with
    | .vObj dc =>
      let ol := alLookup dc "output_limiter"
      let en := alLookup dc "enabled"
      if getIsNone ol || getIsNone en ||
          (match ol with | some v => pyTruthy v | none => false) then
        migrateLimiterGo t dspCur dataCur changed
      else
        let moved : Except Unit Obj :=
          if (match en with | some v => pyTruthy v | none => false) then
            match alLookup dataCur CONF_PLAYERS with
            | none => .ok dataCur
            | some pv =>
              if !pyTruthy pv then .ok dataCur
              else
                match pv with
                | .vObj players =>
                  match alLookup players pid with
                  | none => .ok dataCur
                  | some plv =>
                    if !pyTruthy plv then .ok dataCur
                    else
                      match plv with
                      | .vObj pl =>
                        match alLookup pl "values" with
                        | some (.vObj plvals) =>
                          .ok (alInsert dataCur CONF_PLAYERS (.vObj
                            (alInsert players pid (.vObj
                              (alInsert pl "values" (.vObj
                                (alInsert plvals CONF_OUTPUT_LIMITER
                                  (.vBool false))))))))
                        | some _ => .error ()
                        | none => .error ()
                      | _ => .error ()
                | _ => .error ()
          else .ok dataCur
        match moved with
        | .error e => .error e
        | .ok dataCur1 =>
          migrateLimiterGo t
            (alInsert dspCur pid (.vObj (alErase dc "output_limiter")))
            dataCur1 true
    | _ => .error ()

def migrateLimiter (data : Obj) : Except Unit (Obj × Bool) := do
  let items ← topItems data CONF_PLAYER_DSP
  let (dspCur, dataCur, ch) ← migrateLimiterGo items items data false
  pure (topWriteBack dataCur CONF_PLAYER_DSP dspCur, ch)

/-- The scan of transformation 5 (lines 860-867): find the first stored
provider whose domain is not a builtin default (a non-string domain is
never a member of the builtin set, so it also counts). -/
def migrateOnboardScan (builtins : List String) : Obj → Except Unit Bool
  | [] => .ok false
  | (_, pc) :: t =>
    match pc with
    | .vObj co =>
      match alLookup co "domain" with
      | some dv =>
        if !(match dv with | .vStr s => builtins.contains s | _ => false)
        then .ok true
        else migrateOnboardScan builtins t
      | none => .error ()
    | _ => .error ()

/-- Transformation 5: backfill the onboard-done flag when it has never been
set (`is None` covers both an absent key and a stored null). -/
def migrateOnboard (builtins : List String) (data : Obj) :
    Except Unit (Obj × Bool) :=
  if !getIsNone (alLookup data CONF_ONBOARD_DONE) then .ok (data, false)
  else do
    let items ← topItems data CONF_PROVIDERS
    let found ← migrateOnboardScan builtins items
    if found then pure (alInsert data CONF_ONBOARD_DONE (.vBool true), true)
    else pure (data, false)

/-- Transformation 6 (lines 868-876): rename the `slimproto` domain to
`squeezelite`, rewriting the instance id and re-keying the entry (delete
first, then insert under the new id, as the source does). -/
def migrateSlimGo : Obj → Obj → Bool → Except Unit (Obj × Bool)
  | [], cur, changed => .ok (cur, changed)
  | (iid, pc) :: t, cur, changed =>
    match pc with
    | .vObj co =>
      if !(match alLookup co "domain" with
           | some (.vStr s) => s == "slimproto"
           | _ => false) then
        migrateSlimGo t cur changed
      else
        match alLookup cur iid with
        | none => .error ()
        | some _ =>
          let niid := strReplace iid "slimproto" "squeezelite"
          let co1 := alInsert (alInsert co "instance_id" (.vStr niid))
            "domain" (.vStr "squeezelite")
          migrateSlimGo t (alInsert (alErase cur iid) niid (.vObj co1)) true
    | _ => .error ()

def migrateSlim (data : Obj) : Except Unit (Obj × Bool) := do
  let items ← topItems data CONF_PROVIDERS
  let (cur, ch) ← migrateSlimGo items items false
  pure (topWriteBack data CONF_PROVIDERS cur, ch)

/-- Transformation 7 (lines 878-884): pop a truthy legacy `hide_player`
value into `hide_player_in_ui`.  The source sets `changed = True` for every
player config whose values dict is truthy, whether or not anything was
popped — reproduced faithfully here. -/
def migrateHideGo : Obj → Obj → Bool → Except Unit (Obj × Bool)
  | [], cur, changed => .ok (cur, changed)
  | (pid, pc) :: t, cur, changed =>
    match pc with
    | .vObj co =>
      match alLookup co "values" with
      | some (.vObj []) => migrateHideGo t cur changed
      | some (.vObj vs) =>
        let popped := alLookup vs "hide_player"
        let vs1 := alErase vs "hide_player"
        let vs2 :=
          if (match popped with | some v => pyTruthy v | none => false) then
            alInsert vs1 "hide_player_in_ui" (.vList [.vStr "always"])
          else vs1
        migrateHideGo t
          (alInsert cur pid (.vObj (alInsert co "values" (.vObj vs2)))) true
      | some v => if pyTruthy v then .error () else migrateHideGo t cur changed
      | none => migrateHideGo t cur changed
    | _ => .error ()

def migrateHide (data : Obj) : Except Unit (Obj × Bool) := do
  let items ← topItems data CONF_PLAYERS
  let (cur, ch) ← migrateHideGo items items false
  pure (topWriteBack data CONF_PLAYERS cur, ch)

/-- `_migrate` (config.py lines 807-887): the six transformations in source
order; the returned flag is the final `changed`, i.e. whether the pipeline
ends by scheduling one immediate durable save (`await self._async_save()`).
`builtins` is the set of builtin domains from the provider manifests. -/
def migrate (builtins : List String) (data0 : Obj) :
    Except Unit (Obj × Bool) := do
  let (d1, c1) ← migrateCorrupt data0
  let (d2, c2) ← migrateIps d1
  let (d3, c3) ← migrateRates d2
  let (d4, c4) ← migrateLimiter d3
  let (d5, c5) ← migrateOnboard builtins d4
  let (d6, c6) ← migrateSlim d5
  let (d7, c7) ← migrateHide d6
  pure (d7, c1 || c2 || c3 || c4 || c5 || c6 || c7)

/-! ## Load -/

/-- What trying one persisted file can look like: absent
(`FileNotFoundError`), unparseable (a `JSON_DECODE_EXCEPTIONS` member), or
successfully parsed into a tree. -/
inductive FileState where
  | missing
  | corrupt
  | parsed (tree : Obj)

/-- `_load` (config.py lines 790-805): try the primary file then the
`.backup`; the first candidate that parses becomes the store and is
migrated; a missing or unparseable candidate falls through to the next;
when no candidate parses the store starts empty and load succeeds.  The
returned flag is the migration's immediate-save flag. -/
def loadStore (builtins : List String) (primary backup : FileState) :
    Except Unit (Obj × Bool) :=
  match primary with
  | .parsed t => migrate builtins t
  | _ =>
    match backup with
    | .parsed t => migrate builtins t
    | _ => .ok ([], false)

/-! ## Dictionary lemmas -/

theorem alLookup_alInsert_self (l : Obj) (k : String) (v : Value) :
    alLookup (alInsert l k v) k = some v := by
  induction l with
  | nil => simp [alInsert, alLookup]
  | cons p t ih =>
    obtain ⟨k1, v1⟩ := p
    by_cases h : k1 = k
    · simp [alInsert, alLookup, h]
    · simp [alInsert, alLookup, h, ih]

theorem alLookup_alInsert_ne (l : Obj) (k k2 : String) (v : Value)
    (h : k2 ≠ k) : alLookup (alInsert l k v) k2 = alLookup l k2 := by
  have h' : ¬k = k2 := fun hh => h hh.symm
  induction l with
  | nil => simp [alInsert, alLookup, h']
  | cons p t ih =>
    obtain ⟨k1, v1⟩ := p
    by_cases h1 : k1 = k
    · subst h1
      simp [alInsert, alLookup, h']
    · by_cases h2 : k1 = k2 <;> simp [alInsert, alLookup, h, h1, h2, ih]

theorem alLookup_alErase_self (l : Obj) (k : String)
    (hnd : keysNodup l = true) : alLookup (alErase l k) k = none := by
  induction l with
  | nil => simp [alErase, alLookup]
  | cons p t ih =>
    obtain ⟨k1, v1⟩ := p
    simp only [keysNodup, Bool.and_eq_true, Option.isNone_iff_eq_none] at hnd
    by_cases h1 : k1 = k
    · subst h1
      simp [alErase, hnd.1]
    · simp [alErase, alLookup, h1, ih hnd.2]

theorem alLookup_alErase_ne (l : Obj) (k k2 : String) (h : k2 ≠ k) :
    alLookup (alErase l k) k2 = alLookup l k2 := by
  have h' : ¬k = k2 := fun hh => h hh.symm
  induction l with
  | nil => simp [alErase, alLookup]
  | cons p t ih =>
    obtain ⟨k1, v1⟩ := p
    by_cases h1 : k1 = k
    · subst h1
      simp [alErase, alLookup, h']
    · by_cases h2 : k1 = k2 <;> simp [alErase, alLookup, h, h1, h2, ih]

theorem alInsert_self_eq (l : Obj) (k : String) (v : Value)
    (h : alLookup l k = some v) : alInsert l k v = l := by
  induction l with
  | nil => simp [alLookup] at h
  | cons p t ih =>
    obtain ⟨k1, v1⟩ := p
    by_cases h1 : k1 = k
    · subst h1
      simp only [alLookup, if_true, eq_self_iff_true, Option.some.injEq] at h
      subst h
      simp [alInsert]
    · simp only [alLookup, if_neg h1] at h
      simp [alInsert, h1, ih h]

theorem alErase_absent (l : Obj) (k : String) (h : alLookup l k = none) :
    alErase l k = l := by
  induction l with
  | nil => simp [alErase]
  | cons p t ih =>
    obtain ⟨k1, v1⟩ := p
    by_cases h1 : k1 = k
    · subst h1; simp [alLookup] at h
    · simp only [alLookup, if_neg h1] at h
      simp [alErase, h1, ih h]

theorem keysNodup_alInsert (l : Obj) (k : String) (v : Value)
    (h : keysNodup l = true) : keysNodup (alInsert l k v) = true := by
  induction l with
  | nil => simp [alInsert, keysNodup, alLookup]
  | cons p t ih =>
    obtain ⟨k1, v1⟩ := p
    simp only [keysNodup, Bool.and_eq_true, Option.isNone_iff_eq_none] at h
    by_cases h1 : k1 = k
    · subst h1
      simp [alInsert, keysNodup, h.1, h.2]
    · simp only [alInsert, if_neg h1, keysNodup, Bool.and_eq_true,
        Option.isNone_iff_eq_none]
      refine ⟨?_, ih h.2⟩
      rw [alLookup_alInsert_ne]
      · exact h.1
      · exact h1

theorem keysNodup_alErase (l : Obj) (k : String)
    (h : keysNodup l = true) : keysNodup (alErase l k) = true := by
  induction l with
  | nil => simp [alErase, keysNodup]
  | cons p t ih =>
    obtain ⟨k1, v1⟩ := p
    simp only [keysNodup, Bool.and_eq_true, Option.isNone_iff_eq_none] at h
    by_cases h1 : k1 = k
    · subst h1; simp [alErase, h.2]
    · simp only [alErase, if_neg h1, keysNodup, Bool.and_eq_true,
        Option.isNone_iff_eq_none]
      refine ⟨?_, ih h.2⟩
      rw [alLookup_alErase_ne]
      · exact h.1
      · exact h1

/-- Key distinctness along one walk of the tree: the dicts actually
traversed for a given path have distinct keys.  (Any store obtained by
parsing JSON satisfies this at every path.) -/
def pathNodup : Obj → List String → Bool
  | _, [] => true
  | l, k :: ks =>
    keysNodup l &&
      (match alLookup l k with
       | some (.vObj c) => pathNodup c ks
       | _ => true)

theorem pathNodup_nil (ks : List String) : pathNodup [] ks = true := by
  cases ks <;> simp [pathNodup, keysNodup, alLookup]

theorem pathNodup_cons_keys (l : Obj) (k : String) (ks : List String)
    (h : pathNodup l (k :: ks) = true) : keysNodup l = true := by
  simp only [pathNodup, Bool.and_eq_true] at h
  exact h.1

theorem pathNodup_cons_obj (l c : Obj) (k : String) (ks : List String)
    (h : pathNodup l (k :: ks) = true)
    (hl : alLookup l k = some (.vObj c)) : pathNodup c ks = true := by
  simp only [pathNodup, Bool.and_eq_true] at h
  have := h.2
  rw [hl] at this
  exact this

/-! ## Walk lemmas -/

theorem setGo_nil_ok (ks : List String) (v : Value) :
    ∃ c, setGo [] ks v = .ok c := by
  induction ks with
  | nil => exact ⟨[], rfl⟩
  | cons k rest ih =>
    cases rest with
    | nil => exact ⟨[(k, v)], rfl⟩
    | cons k' rest' =>
      obtain ⟨c, hc⟩ := ih
      refine ⟨alInsert [] k (.vObj c), ?_⟩
      simp only [setGo, alLookup]
      rw [hc]

/-- A successful `set` through a first segment only rewrites that segment's
entry. -/
theorem setGo_cons_shape (l l' : Obj) (k : String) (ks : List String)
    (v : Value) (h : setGo l (k :: ks) v = .ok l') :
    ∃ w, l' = alInsert l k w := by
  cases ks with
  | nil =>
    simp only [setGo, Except.ok.injEq] at h
    exact ⟨v, h.symm⟩
  | cons k' r =>
    simp only [setGo] at h
    cases hl : alLookup l k with
    | none =>
      simp only [hl] at h
      cases hs : setGo [] (k' :: r) v with
      | error c => simp only [hs] at h; exact absurd h (by simp)
      | ok c =>
        simp only [hs, Except.ok.injEq] at h
        exact ⟨.vObj c, h.symm⟩
    | some w =>
      simp only [hl] at h
      cases w with
      | vObj child =>
        cases hs : setGo child (k' :: r) v with
        | error c => simp only [hs] at h; exact absurd h (by simp)
        | ok c =>
          simp only [hs, Except.ok.injEq] at h
          exact ⟨.vObj c, h.symm⟩
      | vNull => exact absurd h (by simp)
      | vBool b => exact absurd h (by simp)
      | vInt n => exact absurd h (by simp)
      | vStr s => exact absurd h (by simp)
      | vList xs => exact absurd h (by simp)

/-- A successful `remove` through a first segment leaves the dict
unchanged, erases that entry, or rewrites it with a mapping. -/
theorem removeGo_cons_shape (l l' : Obj) (k : String) (ks : List String)
    (s : Bool) (h : removeGo l (k :: ks) = .ok (l', s)) :
    l' = l ∨ l' = alErase l k ∨ ∃ c, l' = alInsert l k (.vObj c) := by
  simp only [removeGo] at h
  cases hl : alLookup l k with
  | none =>
    simp only [hl, Except.ok.injEq, Prod.mk.injEq] at h
    exact Or.inl h.1.symm
  | some w =>
    simp only [hl] at h
    cases ks with
    | nil =>
      simp only [Except.ok.injEq, Prod.mk.injEq] at h
      exact Or.inr (Or.inl h.1.symm)
    | cons k' r =>
      cases w with
      | vObj child =>
        cases hr : removeGo child (k' :: r) with
        | error c => simp only [hr] at h; exact absurd h (by simp)
        | ok pr =>
          obtain ⟨c2, s2⟩ := pr
          simp only [hr, Except.ok.injEq, Prod.mk.injEq] at h
          exact Or.inr (Or.inr ⟨c2, h.1.symm⟩)
      | vNull => exact absurd h (by simp)
      | vBool b => exact absurd h (by simp)
      | vInt n => exact absurd h (by simp)
      | vStr str =>
        by_cases hss : strHas str k'
        · simp only [hss] at h; exact absurd h (by simp)
        · simp only [hss] at h
          simp only [Bool.false_eq_true, if_false, Except.ok.injEq,
            Prod.mk.injEq] at h
          exact Or.inl h.1.symm
      | vList xs =>
        by_cases hss : listHasStr xs k'
        · simp only [hss] at h; exact absurd h (by simp)
        · simp only [hss] at h
          simp only [Bool.false_eq_true, if_false, Except.ok.injEq,
            Prod.mk.injEq] at h
          exact Or.inl h.1.symm

theorem setGo_frame (l l' : Obj) (k : String) (ks : List String) (v : Value)
    (h : setGo l (k :: ks) v = .ok l') (k2 : String) (hk2 : k2 ≠ k) :
    alLookup l' k2 = alLookup l k2 := by
  obtain ⟨w, hw⟩ := setGo_cons_shape l l' k ks v h
  subst hw
  exact alLookup_alInsert_ne _ _ _ _ hk2

theorem removeGo_frame (l l' : Obj) (k : String) (ks : List String)
    (s : Bool) (h : removeGo l (k :: ks) = .ok (l', s)) (k2 : String)
    (hk2 : k2 ≠ k) : alLookup l' k2 = alLookup l k2 := by
  rcases removeGo_cons_shape l l' k ks s h with h1 | h1 | ⟨c, h1⟩ <;> subst h1
  · rfl
  · exact alLookup_alErase_ne _ _ _ hk2
  · exact alLookup_alInsert_ne _ _ _ _ hk2

theorem keysNodup_setGo (l l' : Obj) (k : String) (ks : List String)
    (v : Value) (h : setGo l (k :: ks) v = .ok l')
    (hnd : keysNodup l = true) : keysNodup l' = true := by
  obtain ⟨w, hw⟩ := setGo_cons_shape l l' k ks v h
  subst hw
  exact keysNodup_alInsert _ _ _ hnd

theorem keysNodup_removeGo (l l' : Obj) (k : String) (ks : List String)
    (s : Bool) (h : removeGo l (k :: ks) = .ok (l', s))
    (hnd : keysNodup l = true) : keysNodup l' = true := by
  rcases removeGo_cons_shape l l' k ks s h with h1 | h1 | ⟨c, h1⟩ <;> subst h1
  · exact hnd
  · exact keysNodup_alErase _ _ hnd
  · exact keysNodup_alInsert _ _ _ hnd

/-- One-step unfolding of `remove` through a mapping entry, keeping the
recursive call folded. -/
theorem removeGo_cons_obj (l : Obj) (k k2 : String) (ks : List String)
    (c : Obj) (hl : alLookup l k = some (.vObj c)) :
    removeGo l (k :: k2 :: ks) =
      match removeGo c (k2 :: ks) with
      | .ok (c2, s) => .ok (alInsert l k (.vObj c2), s)
      | .error c2 => .error (alInsert l k (.vObj c2)) := by
  simp only [removeGo, hl]

/-- One-step unfolding of `get` through a mapping entry. -/
theorem getGo_cons_obj (l : Obj) (k k2 : String) (ks : List String)
    (c : Obj) (d : Value) (hl : alLookup l k = some (.vObj c)) :
    getGo l (k :: k2 :: ks) d = getGo c (k2 :: ks) d := by
  simp only [getGo, hl]

/-- Round trip at the heart of the store: a successful `set` can be undone
by `remove` (which reaches the terminal pop, hence saves), after which
`get` yields the caller's default again. -/
theorem set_remove_get (ks : List String) :
    ∀ (parent p1 : Obj) (v : Value),
      pathNodup parent ks = true → setGo parent ks v = .ok p1 →
      ∃ p2, removeGo p1 ks = .ok (p2, true) ∧ ∀ d, getGo p2 ks d = .ok d := by
  induction ks with
  | nil =>
    intro parent p1 v _ hset
    simp only [setGo, Except.ok.injEq] at hset
    subst hset
    exact ⟨parent, rfl, fun d => rfl⟩
  | cons k rest ih =>
    intro parent p1 v hnd hset
    have hndk := pathNodup_cons_keys _ _ _ hnd
    cases rest with
    | nil =>
      simp only [setGo, Except.ok.injEq] at hset
      subst hset
      have hk : alLookup (alInsert parent k v) k = some v :=
        alLookup_alInsert_self _ _ _
      refine ⟨alErase (alInsert parent k v) k, ?_, ?_⟩
      · simp only [removeGo, hk]
      · intro d
        have hnone : alLookup (alErase (alInsert parent k v) k) k = none :=
          alLookup_alErase_self _ _ (keysNodup_alInsert _ _ _ hndk)
        simp only [getGo, hnone]
    | cons k' rest' =>
      simp only [setGo] at hset
      cases hl : alLookup parent k with
      | none =>
        simp only [hl] at hset
        cases hs : setGo [] (k' :: rest') v with
        | error c => simp only [hs] at hset; exact absurd hset (by simp)
        | ok c =>
          simp only [hs, Except.ok.injEq] at hset
          subst hset
          obtain ⟨c2, hrem, hget⟩ := ih [] c v (pathNodup_nil _) hs
          refine ⟨alInsert (alInsert parent k (.vObj c)) k (.vObj c2), ?_, ?_⟩
          · have hk1 : alLookup (alInsert parent k (.vObj c)) k =
                some (.vObj c) := alLookup_alInsert_self _ _ _
            rw [removeGo_cons_obj _ _ _ _ _ hk1, hrem]
          · intro d
            have hk2 : alLookup
                (alInsert (alInsert parent k (.vObj c)) k (.vObj c2)) k =
                some (.vObj c2) := alLookup_alInsert_self _ _ _
            simp only [getGo, hk2]
            exact hget d
      | some w =>
        simp only [hl] at hset
        cases w with
        | vObj child =>
          cases hs : setGo child (k' :: rest') v with
          | error c => simp only [hs] at hset; exact absurd hset (by simp)
          | ok c =>
            simp only [hs, Except.ok.injEq] at hset
            subst hset
            obtain ⟨c2, hrem, hget⟩ :=
              ih child c v (pathNodup_cons_obj _ _ _ _ hnd hl) hs
            refine ⟨alInsert (alInsert parent k (.vObj c)) k (.vObj c2),
              ?_, ?_⟩
            · have hk1 : alLookup (alInsert parent k (.vObj c)) k =
                  some (.vObj c) := alLookup_alInsert_self _ _ _
              rw [removeGo_cons_obj _ _ _ _ _ hk1, hrem]
            · intro d
              have hk2 : alLookup
                  (alInsert (alInsert parent k (.vObj c)) k (.vObj c2)) k =
                  some (.vObj c2) := alLookup_alInsert_self _ _ _
              simp only [getGo, hk2]
              exact hget d
        | vNull => exact absurd hset (by simp)
        | vBool b => exact absurd hset (by simp)
        | vInt n => exact absurd hset (by simp)
        | vStr s => exact absurd hset (by simp)
        | vList xs => exact absurd hset (by simp)

/-- After a successful `remove`, `get` along the same path yields the
default. -/
theorem remove_get (ks : List String) :
    ∀ (l l' : Obj) (s : Bool), pathNodup l ks = true →
      removeGo l ks = .ok (l', s) → ∀ d, getGo l' ks d = .ok d := by
  induction ks with
  | nil =>
    intro l l' s _ hrem d
    simp only [removeGo, Except.ok.injEq, Prod.mk.injEq] at hrem
    obtain ⟨h1, _⟩ := hrem
    subst h1
    rfl
  | cons k rest ih =>
    intro l l' s hnd hrem d
    have hndk := pathNodup_cons_keys _ _ _ hnd
    simp only [removeGo] at hrem
    cases hl : alLookup l k with
    | none =>
      simp only [hl, Except.ok.injEq, Prod.mk.injEq] at hrem
      obtain ⟨h1, _⟩ := hrem
      subst h1
      cases rest <;> simp [getGo, hl]
    | some w =>
      simp only [hl] at hrem
      cases rest with
      | nil =>
        simp only [Except.ok.injEq, Prod.mk.injEq] at hrem
        obtain ⟨h1, _⟩ := hrem
        subst h1
        have hnone : alLookup (alErase l k) k = none :=
          alLookup_alErase_self _ _ hndk
        simp [getGo, hnone]
      | cons k' r' =>
        cases w with
        | vObj child =>
          cases hr : removeGo child (k' :: r') with
          | error c => simp only [hr] at hrem; exact absurd hrem (by simp)
          | ok pr =>
            obtain ⟨c2, s2⟩ := pr
            simp only [hr, Except.ok.injEq, Prod.mk.injEq] at hrem
            obtain ⟨h1, _⟩ := hrem
            subst h1
            have hk2 : alLookup (alInsert l k (.vObj c2)) k =
                some (.vObj c2) := alLookup_alInsert_self _ _ _
            simp only [getGo, hk2]
            exact ih child c2 s2 (pathNodup_cons_obj _ _ _ _ hnd hl) hr d
        | vNull => exact absurd hrem (by simp)
        | vBool b => exact absurd hrem (by simp)
        | vInt n => exact absurd hrem (by simp)
        | vStr str =>
          by_cases hss : strHas str k'
          · simp only [hss] at hrem; exact absurd hrem (by simp)
          · simp only [hss, Bool.false_eq_true, if_false, Except.ok.injEq,
              Prod.mk.injEq] at hrem
            obtain ⟨h1, _⟩ := hrem
            subst h1
            simp [getGo, hl, hss]
        | vList xs =>
          by_cases hss : listHasStr xs k'
          · simp only [hss] at hrem; exact absurd hrem (by simp)
          · simp only [hss, Bool.false_eq_true, if_false, Except.ok.injEq,
              Prod.mk.injEq] at hrem
            obtain ⟨h1, _⟩ := hrem
            subst h1
            simp [getGo, hl, hss]

/-! ## Path-splitting lemmas -/

theorem splitGo_noSep (cs : List Char) : ∀ acc : List Char,
    cs.all (· ≠ '/') = true →
    splitGo '/' cs acc = [String.mk (acc.reverse ++ cs)] := by
  induction cs with
  | nil => intro acc _; simp [splitGo]
  | cons c t ih =>
    intro acc h
    simp only [List.all_cons, Bool.and_eq_true, decide_eq_true_eq] at h
    have hc : ¬c = '/' := h.1
    simp only [splitGo, if_neg hc]
    rw [ih (c :: acc) (by simpa using h.2)]
    simp

theorem splitGo_sep (pre : List Char) : ∀ (acc rest : List Char),
    pre.all (· ≠ '/') = true →
    splitGo '/' (pre ++ '/' :: rest) acc =
      String.mk (acc.reverse ++ pre) :: splitGo '/' rest [] := by
  induction pre with
  | nil =>
    intro acc rest _
    simp [splitGo]
  | cons c t ih =>
    intro acc rest h
    simp only [List.all_cons, Bool.and_eq_true, decide_eq_true_eq] at h
    have hc : ¬c = '/' := h.1
    have hsplit : (c :: t) ++ '/' :: rest = c :: (t ++ '/' :: rest) := rfl
    rw [hsplit]
    simp only [splitGo, if_neg hc]
    rw [ih (c :: acc) rest (by simpa using h.2)]
    simp

/-- `f"{p}/{q}".split("/") == [p, q]` when neither part contains a
separator. -/
theorem splitPath_two (p q : String) (hp : noSlash p = true)
    (hq : noSlash q = true) : splitPath (p ++ "/" ++ q) = [p, q] := by
  have hdata : (p ++ "/" ++ q).data = p.data ++ '/' :: q.data := by
    have h1 : (p ++ "/" ++ q).data = (p.data ++ ['/']) ++ q.data := rfl
    rw [h1, List.append_assoc]
    rfl
  unfold splitPath
  rw [hdata, splitGo_sep p.data [] q.data hp, splitGo_noSep q.data [] hq]
  cases p; cases q; simp

/-! ## Stored values along a path -/

/-- The value actually stored at a path (walking only through mappings):
the specification-side observer used to state properties about `get`,
`set_default` and the cascade operations. -/
def pathStored : Obj → List String → Option Value
  | _, [] => none
  | l, [k] => alLookup l k
  | l, k :: k2 :: ks =>
    match alLookup l k with
    | some (.vObj c) => pathStored c (k2 :: ks)
    | _ => none

/-- `get` returns the stored value when one is present and not null. -/
theorem getGo_of_stored (ks : List String) : ∀ (l : Obj) (w d : Value),
    pathStored l ks = some w → w ≠ .vNull → getGo l ks d = .ok w := by
  induction ks with
  | nil => intro l w d h _; simp [pathStored] at h
  | cons k rest ih =>
    intro l w d h hw
    cases rest with
    | nil =>
      simp only [pathStored] at h
      cases w with
      | vNull => exact absurd rfl hw
      | vBool b => simp [getGo, h]
      | vInt n => simp [getGo, h]
      | vStr s => simp [getGo, h]
      | vList xs => simp [getGo, h]
      | vObj o => simp [getGo, h]
    | cons k2 r =>
      simp only [pathStored] at h
      cases hl : alLookup l k with
      | none => rw [hl] at h; simp at h
      | some v =>
        rw [hl] at h
        cases v with
        | vObj c =>
          rw [getGo_cons_obj _ _ _ _ _ _ hl]
          exact ih c w d h hw
        | vNull => simp at h
        | vBool b => simp at h
        | vInt n => simp at h
        | vStr s => simp at h
        | vList xs => simp at h

/-- `get` returns the default when the stored value is null. -/
theorem getGo_of_stored_null (ks : List String) : ∀ (l : Obj) (d : Value),
    pathStored l ks = some .vNull → getGo l ks d = .ok d := by
  induction ks with
  | nil => intro l d h; simp [pathStored] at h
  | cons k rest ih =>
    intro l d h
    cases rest with
    | nil =>
      simp only [pathStored] at h
      simp [getGo, h]
    | cons k2 r =>
      simp only [pathStored] at h
      cases hl : alLookup l k with
      | none => rw [hl] at h; simp at h
      | some v =>
        rw [hl] at h
        cases v with
        | vObj c =>
          rw [getGo_cons_obj _ _ _ _ _ _ hl]
          exact ih c d h
        | vNull => simp at h
        | vBool b => simp at h
        | vInt n => simp at h
        | vStr s => simp at h
        | vList xs => simp at h

/-- Whether a stored value is a mapping. -/
def isMapping : Value → Bool
  | .vObj _ => true
  | _ => false

/-- One-step unfolding of `set` through an existing mapping entry, keeping
the recursive call folded. -/
theorem setGo_cons_obj (l : Obj) (k k2 : String) (ks : List String)
    (c : Obj) (v : Value) (hl : alLookup l k = some (.vObj c)) :
    setGo l (k :: k2 :: ks) v =
      match setGo c (k2 :: ks) v with
      | .ok c2 => .ok (alInsert l k (.vObj c2))
      | .error c2 => .error (alInsert l k (.vObj c2)) := by
  simp only [setGo, hl]

theorem isPrefixOf_append (l m : List Char) : l.isPrefixOf (l ++ m) = true := by
  induction l with
  | nil => simp [List.isPrefixOf]
  | cons c t ih => simp [List.isPrefixOf, ih]

theorem startswith_append (p y : String) : startswith p (p ++ y) = true := by
  unfold startswith
  have h : (p ++ y).data = p.data ++ y.data := rfl
  rw [h]
  exact isPrefixOf_append _ _

/-! ## Claims -/

/-- C8: for every path `p`, value `v` and default `d`, a successful
`Set(p, v)` followed by `Remove(p)` on a loaded store leaves
`Get(p, d) == d` — the set-then-remove round trip restores the
missing-path read behaviour.  (The store is any tree whose dicts along the
walked path have distinct keys, which holds for every parsed store.) -/
theorem set_remove_get_roundtrip (st st1 : Obj) (p : String) (v d : Value)
    (hnd : pathNodup st (splitPath p) = true)
    (hset : configSet st p v = .ok st1) :
    ∃ st2 saved, configRemove st1 p = .ok (st2, saved) ∧
      configGet st2 p d = .ok d := by
  obtain ⟨st2, hrem, hget⟩ := set_remove_get (splitPath p) st st1 v hnd hset
  exact ⟨st2, true, hrem, hget d⟩

theorem set_remove_get_roundtrip_witness :
    (pathNodup [] (splitPath "a/b") = true) ∧
    (configSet [] "a/b" (.vInt 1) =
      .ok [("a", Value.vObj [("b", Value.vInt 1)])]) ∧
    ∃ st2 saved,
      configRemove [("a", Value.vObj [("b", Value.vInt 1)])] "a/b" =
        .ok (st2, saved) ∧
      configGet st2 "a/b" (.vStr "x") = .ok (.vStr "x") :=
  ⟨rfl, rfl,
    set_remove_get_roundtrip [] [("a", Value.vObj [("b", Value.vInt 1)])]
      "a/b" (.vInt 1) (.vStr "x") rfl rfl⟩

/-- C9: `Set` only auto-creates an intermediate segment when it is absent;
when an intermediate segment of the path already holds a non-mapping
value, `Set` raises instead of replacing it with a mapping, and the store
is returned unchanged — a scalar stored at a proper prefix of the path is
never silently destroyed by a deeper write. -/
theorem set_rejects_scalar_intermediate (st : Obj) (p1 p2 : List String)
    (v w : Value) (h2 : p2 ≠ []) (hw : pathStored st p1 = some w)
    (hobj : isMapping w = false) :
    setGo st (p1 ++ p2) v = .error st := by
  induction p1 generalizing st with
  | nil => simp [pathStored] at hw
  | cons k rest ih =>
    cases rest with
    | nil =>
      simp only [pathStored] at hw
      cases p2 with
      | nil => exact absurd rfl h2
      | cons q qs =>
        cases w with
        | vObj c => simp [isMapping] at hobj
        | vNull => simp [setGo, hw]
        | vBool b => simp [setGo, hw]
        | vInt n => simp [setGo, hw]
        | vStr s => simp [setGo, hw]
        | vList xs => simp [setGo, hw]
    | cons k2 ks =>
      simp only [pathStored] at hw
      cases hl : alLookup st k with
      | none => rw [hl] at hw; simp at hw
      | some u =>
        rw [hl] at hw
        cases u with
        | vObj c =>
          have hih := ih c hw
          simp only [List.cons_append] at hih ⊢
          rw [setGo_cons_obj st k k2 (ks ++ p2) c v hl]
          rw [hih]
          show Except.error (alInsert st k (Value.vObj c)) = Except.error st
          rw [alInsert_self_eq st k (.vObj c) hl]
        | vNull => simp at hw
        | vBool b => simp at hw
        | vInt n => simp at hw
        | vStr s => simp at hw
        | vList xs => simp at hw

theorem set_rejects_scalar_intermediate_witness :
    ((["a"] : List String) ++ ["b"] ≠ []) ∧
    (pathStored [("a", Value.vInt 5)] ["a"] = some (Value.vInt 5)) ∧
    (isMapping (Value.vInt 5) = false) ∧
    setGo [("a", Value.vInt 5)] (["a"] ++ ["b"]) (Value.vInt 1) =
      .error [("a", Value.vInt 5)] :=
  ⟨by simp, rfl, rfl,
    set_rejects_scalar_intermediate [("a", Value.vInt 5)] ["a"] ["b"]
      (Value.vInt 1) (Value.vInt 5) (by simp) rfl rfl⟩

/-- C2 (counterexample): with null explicitly stored at `p`,
`SetDefault(p, v)` does not leave the stored null in place: it overwrites
it with `v`, because `get` coalesces a stored null to the caller's default
and therefore reports the `"__MISSING__"` sentinel. -/
theorem set_default_overwrites_stored_null_cex :
    set_default [("p", Value.vNull)] "p" (Value.vStr "v") =
      .ok [("p", Value.vStr "v")] ∧
    [("p", Value.vStr "v")] ≠ [("p", Value.vNull)] := by
  constructor
  · rfl
  · simp

/-- C2 (amended): `SetDefault(p, v)` writes `v` when the value at `p` is
absent, explicitly null, or the literal sentinel string: the sentinel is
distinct from null, but `get` maps a stored null to the caller-supplied
default, so an explicitly stored null reads back as the sentinel and is
re-defaulted; any other stored value is preserved and the store is
returned unchanged. -/
theorem set_default_amended (st : Obj) (p : String) (dv : Value) :
    (pathStored st (splitPath p) = some .vNull →
      set_default st p dv = configSet st p dv) ∧
    (∀ w, pathStored st (splitPath p) = some w → w ≠ .vNull →
      w ≠ .vStr "__MISSING__" → set_default st p dv = .ok st) := by
  constructor
  · intro h
    simp only [set_default, configGet]
    rw [getGo_of_stored_null _ _ _ h]
    simp [isMissingSentinel]
  · intro w hst hnull hsent
    simp only [set_default, configGet]
    rw [getGo_of_stored _ _ _ _ hst hnull]
    have hm : isMissingSentinel w = false := by
      cases w with
      | vStr s =>
        simp only [isMissingSentinel, decide_eq_false_iff_not]
        intro hs
        exact hsent (by rw [hs])
      | vNull => rfl
      | vBool b => rfl
      | vInt n => rfl
      | vList xs => rfl
      | vObj o => rfl
    simp [hm]

theorem set_default_amended_witness :
    (pathStored [("p", Value.vNull)] (splitPath "p") = some Value.vNull) ∧
    (set_default [("p", Value.vNull)] "p" (Value.vStr "v") =
      configSet [("p", Value.vNull)] "p" (Value.vStr "v")) ∧
    (pathStored [("q", Value.vBool false)] (splitPath "q") =
      some (Value.vBool false)) ∧
    (set_default [("q", Value.vBool false)] "q" (Value.vStr "v") =
      .ok [("q", Value.vBool false)]) :=
  ⟨rfl, (set_default_amended [("p", Value.vNull)] "p" (Value.vStr "v")).1 rfl,
   rfl,
   (set_default_amended [("q", Value.vBool false)] "q" (Value.vStr "v")).2
     (Value.vBool false) rfl (by simp) (by simp)⟩

/-- C7: `Encrypt(Encrypt(x)) == Encrypt(x)` for every string; for every
plain (unmarked) string, `Decrypt(Encrypt(x)) == x` (given the Fernet
round trip and that removing marker occurrences from the marked token
recovers the token, which holds whenever the Fernet token itself contains
no marker occurrence); and `Decrypt` returns an empty or unmarked string
unchanged. -/
theorem encrypt_decrypt_laws (fenc : String → String)
    (fdec : String → Except Unit String) (x s : String) :
    (encrypt_string fenc (encrypt_string fenc x) = encrypt_string fenc x) ∧
    (startswith ENCRYPT_SUFFIX x = false → fdec (fenc x) = .ok x →
      strReplace (ENCRYPT_SUFFIX ++ fenc x) ENCRYPT_SUFFIX "" = fenc x →
      decrypt_string fdec (encrypt_string fenc x) = .ok x) ∧
    ((s = "" ∨ startswith ENCRYPT_SUFFIX s = false) →
      decrypt_string fdec s = .ok s) := by
  refine ⟨?_, ?_, ?_⟩
  · by_cases hm : startswith ENCRYPT_SUFFIX x
    · simp [encrypt_string, hm]
    · simp [encrypt_string, hm, startswith_append]
  · intro hm hfd hrep
    have hne : (ENCRYPT_SUFFIX ++ fenc x) ≠ "" := by
      intro h0
      have h1 : (ENCRYPT_SUFFIX ++ fenc x).length =
          ENCRYPT_SUFFIX.length + (fenc x).length := String.length_append _ _
      rw [h0] at h1
      have h2 : ("" : String).length = 0 := rfl
      have h3 : ENCRYPT_SUFFIX.length = 11 := rfl
      omega
    have henc : encrypt_string fenc x = ENCRYPT_SUFFIX ++ fenc x := by
      simp [encrypt_string, hm]
    rw [henc]
    unfold decrypt_string
    rw [if_neg hne]
    simp only [startswith_append, Bool.not_true, Bool.false_eq_true,
      if_false]
    rw [hrep, hfd]
  · intro hcase
    rcases hcase with h | h
    · subst h; rfl
    · by_cases hs : s = "" <;> simp [decrypt_string, hs, h]

theorem encrypt_decrypt_laws_witness :
    (encrypt_string (fun t => t) (encrypt_string (fun t => t) "hi") =
      encrypt_string (fun t => t) "hi") ∧
    (decrypt_string (fun t => .ok t) (encrypt_string (fun t => t) "hi") =
      .ok "hi") ∧
    (decrypt_string (fun t => .ok t) "plain" = .ok "plain") :=
  ⟨(encrypt_decrypt_laws (fun t => t) (fun t => .ok t) "hi" "plain").1,
   (encrypt_decrypt_laws (fun t => t) (fun t => .ok t) "hi" "plain").2.1
     rfl rfl rfl,
   (encrypt_decrypt_laws (fun t => t) (fun t => .ok t) "hi" "plain").2.2
     (Or.inr rfl)⟩

/-- C6: load tries the primary file first, then the backup, stopping at
the first candidate that parses (whose tree is then migrated); a parse
failure or missing file falls through to the next candidate; when neither
candidate parses the store starts empty and load succeeds rather than
erroring. -/
theorem load_fallback_chain (builtins : List String)
    (primary backup : FileState) :
    ((∀ t r, primary = .parsed t → migrate builtins t = .ok r →
      loadStore builtins primary backup = .ok r) ∧
     ((primary = .missing ∨ primary = .corrupt) → ∀ t r,
      backup = .parsed t → migrate builtins t = .ok r →
      loadStore builtins primary backup = .ok r) ∧
     ((primary = .missing ∨ primary = .corrupt) →
      (backup = .missing ∨ backup = .corrupt) →
      loadStore builtins primary backup = .ok ([], false))) := by
  refine ⟨?_, ?_, ?_⟩
  · intro t r h1 h2
    subst h1
    simp [loadStore, h2]
  · intro hp t r hb hm
    subst hb
    rcases hp with h | h <;> subst h <;> simp [loadStore, hm]
  · intro hp hb
    rcases hp with h | h <;> rcases hb with h2 | h2 <;> subst h <;>
      subst h2 <;> rfl

theorem load_fallback_chain_witness :
    (loadStore [] .corrupt (.parsed [("x", Value.vInt 7)]) =
      .ok ([("x", Value.vInt 7)], false)) ∧
    (loadStore [] .corrupt .missing = .ok ([], false)) :=
  ⟨(load_fallback_chain [] .corrupt (.parsed [("x", Value.vInt 7)])).2.1
      (Or.inr rfl) [("x", Value.vInt 7)] ([("x", Value.vInt 7)], false)
      rfl rfl,
   (load_fallback_chain [] .corrupt .missing).2.2 (Or.inr rfl)
     (Or.inl rfl)⟩

/-- C3 (code evidence): the migration pipeline is not idempotent in the
sense the claim states.  This tree is a fixed point of the pipeline — the
run changes nothing — yet the run reports `changed = true` (so it performs
the immediate durable save), because the `hide_player` transformation sets
the changed flag for every player config whose values dict is non-empty,
popped key or not.  Consequently the result of one run, fed to a second
run, again reports a change and again saves. -/
theorem migrate_second_run_reports_change :
    migrate [] [("players", Value.vObj [("p1", Value.vObj
      [("values", Value.vObj [("foo", Value.vInt 1)])])])] =
    .ok ([("players", Value.vObj [("p1", Value.vObj
      [("values", Value.vObj [("foo", Value.vInt 1)])])])], true) := rfl

/-! ## Two-segment computation lemmas -/

theorem setGo_two_exists (l : Obj) (k1 k2 : String) (v : Value)
    (h : alLookup l k1 = none ∨ ∃ c, alLookup l k1 = some (.vObj c)) :
    ∃ l', setGo l [k1, k2] v = .ok l' := by
  rcases h with h | ⟨c, h⟩
  · exact ⟨alInsert l k1 (.vObj [(k2, v)]), by simp [setGo, h, alInsert]⟩
  · exact ⟨alInsert l k1 (.vObj (alInsert c k2 v)), by simp [setGo, h]⟩

theorem removeGo_two (l pl : Obj) (k1 k2 : String) (c : Value)
    (h1 : alLookup l k1 = some (.vObj pl)) (h2 : alLookup pl k2 = some c) :
    removeGo l [k1, k2] =
      .ok (alInsert l k1 (.vObj (alErase pl k2)), true) := by
  rw [removeGo_cons_obj l k1 k2 [] pl h1]
  have h3 : removeGo pl [k2] = .ok (alErase pl k2, true) := by
    simp [removeGo, h2]
  rw [h3]

theorem removeGo_two_missing (l pl : Obj) (k1 k2 : String)
    (h1 : alLookup l k1 = some (.vObj pl)) (h2 : alLookup pl k2 = none) :
    removeGo l [k1, k2] = .ok (alInsert l k1 (.vObj pl), false) := by
  rw [removeGo_cons_obj l k1 k2 [] pl h1]
  have h3 : removeGo pl [k2] = .ok (pl, false) := by
    simp [removeGo, h2]
  rw [h3]

theorem removeGo_two_exists (l : Obj) (k1 k2 : String)
    (h : alLookup l k1 = none ∨ ∃ c, alLookup l k1 = some (.vObj c)) :
    ∃ l' s, removeGo l [k1, k2] = .ok (l', s) := by
  rcases h with h | ⟨c, h⟩
  · exact ⟨l, false, by simp [removeGo, h]⟩
  · cases h2 : alLookup c k2 with
    | none => exact ⟨alInsert l k1 (.vObj c), false,
        removeGo_two_missing l c k1 k2 h h2⟩
    | some w => exact ⟨alInsert l k1 (.vObj (alErase c k2)), true,
        removeGo_two l c k1 k2 w h h2⟩

theorem getGo_two_obj (l c : Obj) (k1 k2 : String) (w d : Value)
    (h1 : alLookup l k1 = some (.vObj c)) (h2 : alLookup c k2 = some w)
    (hw : w ≠ .vNull) : getGo l [k1, k2] d = .ok w := by
  rw [getGo_cons_obj l k1 k2 [] c d h1]
  exact getGo_of_stored [k2] c w d (by simp [pathStored, h2]) hw

theorem getGo_cons_congr (l l2 : Obj) (k1 : String) (ks : List String)
    (d : Value) (h : alLookup l k1 = alLookup l2 k1) :
    getGo l (k1 :: ks) d = getGo l2 (k1 :: ks) d := by
  cases ks with
  | nil => simp only [getGo, h]
  | cons k2 r => simp only [getGo, h]

theorem alLookup_mem (l : Obj) (k : String) (v : Value)
    (h : alLookup l k = some v) : (k, v) ∈ l := by
  induction l with
  | nil => simp [alLookup] at h
  | cons p t ih =>
    obtain ⟨k1, v1⟩ := p
    by_cases h1 : k1 = k
    · subst h1
      simp only [alLookup, if_true, eq_self_iff_true, Option.some.injEq] at h
      subst h
      exact List.mem_cons_self _ _
    · simp only [alLookup, if_neg h1] at h
      exact List.mem_cons_of_mem _ (ih h)

theorem pyTruthy_obj_of_lookup (l : Obj) (k : String) (v : Value)
    (h : alLookup l k = some v) : pyTruthy (.vObj l) = true := by
  cases l with
  | nil => simp [alLookup] at h
  | cons p t => simp [pyTruthy]

theorem pathNodup_pair (l : Obj) (k1 k2 : String)
    (h1 : keysNodup l = true)
    (h2 : ∀ c, alLookup l k1 = some (.vObj c) → keysNodup c = true) :
    pathNodup l [k1, k2] = true := by
  simp only [pathNodup, Bool.and_eq_true]
  refine ⟨h1, ?_⟩
  cases hl : alLookup l k1 with
  | none => simp
  | some v =>
    cases v with
    | vObj c =>
      simp only [pathNodup, Bool.and_eq_true]
      refine ⟨h2 c hl, ?_⟩
      cases alLookup c k2 with
      | none => simp
      | some w => cases w <;> simp [pathNodup]
    | vNull => simp
    | vBool b => simp
    | vInt n => simp
    | vStr s => simp
    | vList xs => simp

/-! ## C4: update with no effective change is a no-op -/

/-- C4: for an existing provider instance, an update whose change set is
empty (an empty values dict, or values identical to the stored ones) while
the stored enabled flag matches the observed runtime availability performs
zero persistence writes and emits zero notifications, and leaves the whole
controller state — data, scheduled saves, events — unchanged. -/
theorem update_noop_no_effects (manifests : List Manifest)
    (available validateOk loadOk : Bool) (st : CtrlState)
    (instance_id : String) (values raw : Obj)
    (hraw : getProviderConfigRaw manifests st.data instance_id = .ok raw)
    (hch : changedKeys raw values = [])
    (hen : enabledOf (applyUpdate raw values) = available) :
    updateProviderConfig manifests available validateOk loadOk st
      instance_id values = (st, .ok raw) := by
  unfold updateProviderConfig
  simp [hraw, hch, hen]

/-- Concrete store for the lifecycle witnesses: one enabled music provider
`demo`. -/
def demoProviderRaw : Obj :=
  [("type", .vStr "music"), ("domain", .vStr "demo"),
   ("instance_id", .vStr "demo"), ("default_name", .vStr "Demo"),
   ("enabled", .vBool true), ("values", .vObj [])]

/-- Manifest for the `demo` domain. -/
def demoManifest : Manifest :=
  { domain := "demo", name := "Demo", ptype := "music",
    multi_instance := false, depends_on := none, builtin := false,
    allow_disable := true }

theorem update_noop_no_effects_witness :
    (getProviderConfigRaw [demoManifest]
      [(CONF_PROVIDERS, .vObj [("demo", .vObj demoProviderRaw)])] "demo" =
      .ok demoProviderRaw) ∧
    (changedKeys demoProviderRaw [] = []) ∧
    (enabledOf (applyUpdate demoProviderRaw []) = true) ∧
    (updateProviderConfig [demoManifest] true true true
      { data := [(CONF_PROVIDERS, .vObj [("demo", .vObj demoProviderRaw)])],
        saves := 0, events := 0 } "demo" [] =
      ({ data := [(CONF_PROVIDERS, .vObj [("demo", .vObj demoProviderRaw)])],
         saves := 0, events := 0 }, .ok demoProviderRaw)) :=
  ⟨rfl, rfl, rfl,
    update_noop_no_effects [demoManifest] true true true
      { data := [(CONF_PROVIDERS, .vObj [("demo", .vObj demoProviderRaw)])],
        saves := 0, events := 0 } "demo" [] demoProviderRaw rfl rfl rfl⟩

/-! ## C1: add rolls back on activation failure -/

/-- C1: whenever `Add` reaches persistence (manifest found, dependency
met, no conflicting instance, validation passed) and the activation hook
then raises, the just-persisted entity is deleted again and the error
propagates, so a subsequent `Get` for that instance id reports not-found —
no residual entity remains in the store. -/
theorem add_rollback_on_activation_failure (manifests : List Manifest)
    (active : List String) (sfx : String) (st : CtrlState)
    (provider_domain : String) (values : Obj) (m : Manifest)
    (hm : findManifest manifests provider_domain = some m)
    (hdep : depSatisfied m active = true)
    (hex : providerConfigIds manifests st.data provider_domain = .ok [])
    (hsl : noSlash (instanceIdOf m sfx) = true)
    (hprov : alLookup st.data CONF_PROVIDERS = none ∨
      ∃ c, alLookup st.data CONF_PROVIDERS = some (.vObj c))
    (hnd : pathNodup st.data [CONF_PROVIDERS, instanceIdOf m sfx] = true) :
    ∃ stF, addProviderConfig manifests active sfx true false st
        provider_domain values = (stF, .error .activationFailed) ∧
      getProviderConfigRaw manifests stF.data (instanceIdOf m sfx) =
        .error .notFound := by
  have hsp : splitPath (CONF_PROVIDERS ++ "/" ++ instanceIdOf m sfx) =
      [CONF_PROVIDERS, instanceIdOf m sfx] := splitPath_two _ _ rfl hsl
  obtain ⟨d1, hset⟩ := setGo_two_exists st.data CONF_PROVIDERS
    (instanceIdOf m sfx)
    (.vObj (providerConfigToRaw m (instanceIdOf m sfx) values)) hprov
  obtain ⟨d2, hrem, hget⟩ :=
    set_remove_get [CONF_PROVIDERS, instanceIdOf m sfx] st.data d1
      (.vObj (providerConfigToRaw m (instanceIdOf m sfx) values)) hnd hset
  have hcs : ctrlSet st (CONF_PROVIDERS ++ "/" ++ instanceIdOf m sfx)
      (.vObj (providerConfigToRaw m (instanceIdOf m sfx) values)) =
      .ok { data := d1, saves := st.saves + 1, events := st.events } := by
    unfold ctrlSet configSet
    rw [hsp, hset]
  have hcr : ctrlRemove
      { data := d1, saves := st.saves + 1, events := st.events }
      (CONF_PROVIDERS ++ "/" ++ instanceIdOf m sfx) =
      .ok { data := d2, saves := st.saves + 2, events := st.events } := by
    unfold ctrlRemove configRemove
    rw [hsp]
    simp only [hrem, if_true]
  refine ⟨{ data := d2, saves := st.saves + 2, events := st.events },
    ?_, ?_⟩
  · unfold addProviderConfig
    simp only [hm, hdep, hex, Bool.not_true, Bool.false_eq_true, if_false,
      List.isEmpty_nil, Bool.false_and, hcs, hcr]
  · unfold getProviderConfigRaw configGet
    rw [hsp, hget (.vObj [])]
    simp [pyTruthy]

/-! ## Effect-shape lemmas for the lifecycle wrappers -/

theorem ctrlSet_ok_shape (st st' : CtrlState) (key : String) (v : Value)
    (h : ctrlSet st key v = .ok st') :
    st'.saves = st.saves + 1 ∧ st'.events = st.events := by
  unfold ctrlSet at h
  cases hc : configSet st.data key v with
  | ok d =>
    simp only [hc, Except.ok.injEq] at h
    subst h
    exact ⟨rfl, rfl⟩
  | error d => simp only [hc] at h; exact absurd h (by simp)

theorem ctrlSet_error_shape (st st' : CtrlState) (key : String) (v : Value)
    (h : ctrlSet st key v = .error st') :
    st'.saves = st.saves ∧ st'.events = st.events := by
  unfold ctrlSet at h
  cases hc : configSet st.data key v with
  | ok d => simp only [hc] at h; exact absurd h (by simp)
  | error d =>
    simp only [hc, Except.error.injEq] at h
    subst h
    exact ⟨rfl, rfl⟩

theorem ctrlRemove_ok_mono (st st' : CtrlState) (key : String)
    (h : ctrlRemove st key = .ok st') :
    st.saves ≤ st'.saves ∧ st'.events = st.events := by
  unfold ctrlRemove at h
  cases hc : configRemove st.data key with
  | ok pr =>
    obtain ⟨d, saved⟩ := pr
    simp only [hc, Except.ok.injEq] at h
    subst h
    refine ⟨?_, rfl⟩
    cases saved <;> simp
  | error d => simp only [hc] at h; exact absurd h (by simp)

theorem ctrlRemove_error_shape (st st' : CtrlState) (key : String)
    (h : ctrlRemove st key = .error st') :
    st'.saves = st.saves ∧ st'.events = st.events := by
  unfold ctrlRemove at h
  cases hc : configRemove st.data key with
  | ok pr => obtain ⟨d, saved⟩ := pr; simp only [hc] at h
             exact absurd h (by simp)
  | error d =>
    simp only [hc, Except.error.injEq] at h
    subst h
    exact ⟨rfl, rfl⟩

theorem updateProviderConfig_mono (manifests : List Manifest)
    (a v l : Bool) (st : CtrlState) (iid : String) (values : Obj) :
    st.saves ≤
      (updateProviderConfig manifests a v l st iid values).1.saves := by
  unfold updateProviderConfig
  split
  · exact Nat.le_refl _
  · split
    · exact Nat.le_refl _
    · split
      · exact Nat.le_refl _
      · split
        · rename_i st1 heq
          have hs := (ctrlSet_error_shape _ _ _ _ heq).1
          show st.saves ≤ st1.saves
          omega
        · rename_i st1 heq
          have hs := (ctrlSet_ok_shape _ _ _ _ heq).1
          have hle : st.saves ≤ st1.saves := by omega
          split
          · split
            · exact hle
            · exact hle
          · split
            · exact hle
            · split
              · exact hle
              · split
                · exact hle
                · exact hle

theorem addProviderConfig_mono (manifests : List Manifest)
    (active : List String) (sfx : String) (v l : Bool) (st : CtrlState)
    (pd : String) (values : Obj) :
    st.saves ≤
      (addProviderConfig manifests active sfx v l st pd values).1.saves := by
  unfold addProviderConfig
  split
  · exact Nat.le_refl _
  · split
    · exact Nat.le_refl _
    · split
      · exact Nat.le_refl _
      · split
        · exact Nat.le_refl _
        · split
          · exact Nat.le_refl _
          · split
            · rename_i st1 heq
              have hs := (ctrlSet_error_shape _ _ _ _ heq).1
              show st.saves ≤ st1.saves
              omega
            · rename_i st1 heq
              have hs := (ctrlSet_ok_shape _ _ _ _ heq).1
              have hle : st.saves ≤ st1.saves := by omega
              split
              · exact hle
              · split
                · rename_i st2 heq2
                  have h4 := (ctrlRemove_ok_mono _ _ _ heq2).1
                  show st.saves ≤ st2.saves
                  omega
                · rename_i st2 heq2
                  have h4 := (ctrlRemove_error_shape _ _ _ heq2).1
                  show st.saves ≤ st2.saves
                  omega

/-! ## C10: every successful save marks onboarding done -/

/-- C10: every successful call to `save_provider_config` — add or update,
including an update whose change set is an effective no-op — sets the
top-level onboard-done flag to `True` through a normal `set` (which
schedules one more debounced persistence save, so the final save count
strictly exceeds the initial one), and afterwards the `onboard_done`
property reads true. -/
theorem save_provider_config_marks_onboard (manifests : List Manifest)
    (active : List String) (sfx : String)
    (available validateOk loadOk : Bool) (st stF : CtrlState)
    (provider_domain : String) (values : Obj)
    (instance_id : Option String) (raw : Obj)
    (h : saveProviderConfig manifests active sfx available validateOk
      loadOk st provider_domain values instance_id = (stF, .ok raw)) :
    onboard_done stF.data = .ok (.vBool true) ∧
      st.saves + 1 ≤ stF.saves := by
  unfold saveProviderConfig at h
  cases instance_id with
  | some iid =>
    cases hu : updateProviderConfig manifests available validateOk loadOk
        st iid values with
    | mk st1 res =>
      cases res with
      | error e =>
        simp only [hu] at h
        exact absurd h (by simp)
      | ok cfg =>
        simp only [hu] at h
        have hcs : ctrlSet st1 CONF_ONBOARD_DONE (.vBool true) =
            .ok { data := alInsert st1.data CONF_ONBOARD_DONE (.vBool true),
                  saves := st1.saves + 1, events := st1.events } := rfl
        simp only [hcs] at h
        cases hg : getProviderConfigRaw manifests
            (alInsert st1.data CONF_ONBOARD_DONE (.vBool true)) iid with
        | error e => simp only [hg] at h; exact absurd h (by simp)
        | ok r2 =>
          simp only [hg, Prod.mk.injEq, Except.ok.injEq] at h
          obtain ⟨h1, h2⟩ := h
          have hmono : st.saves ≤ st1.saves := by
            have hx := updateProviderConfig_mono manifests available
              validateOk loadOk st iid values
            rw [hu] at hx
            exact hx
          subst h1
          refine ⟨?_, ?_⟩
          · show getGo (alInsert st1.data CONF_ONBOARD_DONE (.vBool true))
              [CONF_ONBOARD_DONE] (.vBool false) = .ok (.vBool true)
            simp [getGo, alLookup_alInsert_self]
          · show st.saves + 1 ≤ st1.saves + 1
            omega
  | none =>
    cases ha : addProviderConfig manifests active sfx validateOk loadOk st
        provider_domain values with
    | mk st1 res =>
      cases res with
      | error e =>
        simp only [ha] at h
        exact absurd h (by simp)
      | ok iid =>
        simp only [ha] at h
        have hcs : ctrlSet st1 CONF_ONBOARD_DONE (.vBool true) =
            .ok { data := alInsert st1.data CONF_ONBOARD_DONE (.vBool true),
                  saves := st1.saves + 1, events := st1.events } := rfl
        simp only [hcs] at h
        cases hg : getProviderConfigRaw manifests
            (alInsert st1.data CONF_ONBOARD_DONE (.vBool true)) iid with
        | error e => simp only [hg] at h; exact absurd h (by simp)
        | ok r2 =>
          simp only [hg, Prod.mk.injEq, Except.ok.injEq] at h
          obtain ⟨h1, h2⟩ := h
          have hmono : st.saves ≤ st1.saves := by
            have hx := addProviderConfig_mono manifests active sfx
              validateOk loadOk st provider_domain values
            rw [ha] at hx
            exact hx
          subst h1
          refine ⟨?_, ?_⟩
          · show getGo (alInsert st1.data CONF_ONBOARD_DONE (.vBool true))
              [CONF_ONBOARD_DONE] (.vBool false) = .ok (.vBool true)
            simp [getGo, alLookup_alInsert_self]
          · show st.saves + 1 ≤ st1.saves + 1
            omega

theorem save_provider_config_marks_onboard_witness :
    ∃ stF raw,
      saveProviderConfig [demoManifest] [] "s" true true true
        { data := [], saves := 0, events := 0 } "demo" [] none =
        (stF, .ok raw) ∧
      onboard_done stF.data = .ok (.vBool true) ∧
      ({ data := ([] : Obj), saves := 0, events := 0 } : CtrlState).saves
        + 1 ≤ stF.saves :=
  ⟨_, _, rfl,
    save_provider_config_marks_onboard [demoManifest] [] "s" true true
      true { data := [], saves := 0, events := 0 } _ "demo" [] none _ rfl⟩

theorem add_rollback_on_activation_failure_witness :
    (findManifest [demoManifest] "demo" = some demoManifest) ∧
    (depSatisfied demoManifest [] = true) ∧
    (providerConfigIds [demoManifest] [] "demo" = .ok []) ∧
    ∃ stF, addProviderConfig [demoManifest] [] "s" true false
        { data := [], saves := 0, events := 0 } "demo" [] =
        (stF, .error .activationFailed) ∧
      getProviderConfigRaw [demoManifest] stF.data
        (instanceIdOf demoManifest "s") = .error .notFound :=
  ⟨rfl, rfl, rfl,
    add_rollback_on_activation_failure [demoManifest] [] "s"
      { data := [], saves := 0, events := 0 } "demo" [] demoManifest
      rfl rfl rfl rfl (Or.inl rfl) rfl⟩

/-! ## C5: the removal cascade -/

/-- Shape of a stored player config as the sweep requires it: a mapping
with a string `player_id` (free of path separators) and a string
`provider`. -/
def confShapeOk : Value → Bool
  | .vObj co =>
    (match alLookup co "player_id" with
     | some (.vStr pid) => noSlash pid
     | _ => false) &&
    (match alLookup co "provider" with
     | some (.vStr _) => true
     | _ => false)
  | _ => false

/-- One sweep step over a config owned by the removed provider: remove the
player entity it names and continue. -/
theorem sweepGo_step_match (iid : String) (co : Obj) (rest : List Value)
    (st st1 : CtrlState) (pid pvs : String)
    (hpv : alLookup co "provider" = some (.vStr pvs))
    (hm : (pvs == iid) = true)
    (hpid : alLookup co "player_id" = some (.vStr pid))
    (hcr : ctrlRemove st (CONF_PLAYERS ++ "/" ++ pid) = .ok st1) :
    sweepGo iid (Value.vObj co :: rest) st = sweepGo iid rest st1 := by
  simp [sweepGo, hpv, hm, hpid, pyFormat, hcr]

/-- One sweep step over a config owned by another provider: skip. -/
theorem sweepGo_step_skip (iid : String) (co : Obj) (rest : List Value)
    (st : CtrlState) (pvs : String)
    (hpv : alLookup co "provider" = some (.vStr pvs))
    (hm : (pvs == iid) = false) :
    sweepGo iid (Value.vObj co :: rest) st = sweepGo iid rest st := by
  simp [sweepGo, hpv, hm]

/-- The sweep of `remove_provider_config` succeeds on well-shaped configs
and, afterwards, every player key named by a swept config of the removed
provider is gone from the stored players dict; other top-level entries are
untouched. -/
theorem sweepGo_spec (iid : String) (confs : List Value) :
    ∀ (st : CtrlState) (pl : Obj),
      alLookup st.data CONF_PLAYERS = some (.vObj pl) →
      keysNodup pl = true →
      (∀ c ∈ confs, confShapeOk c = true) →
      ∃ stF plF, sweepGo iid confs st = (stF, .ok ()) ∧
        alLookup stF.data CONF_PLAYERS = some (.vObj plF) ∧
        keysNodup plF = true ∧
        (∀ k2, k2 ≠ CONF_PLAYERS →
          alLookup stF.data k2 = alLookup st.data k2) ∧
        (∀ k, alLookup pl k = none → alLookup plF k = none) ∧
        (∀ co pid, (Value.vObj co) ∈ confs →
          alLookup co "player_id" = some (.vStr pid) →
          alLookup co "provider" = some (.vStr iid) →
          alLookup plF pid = none) := by
  induction confs with
  | nil =>
    intro st pl hpl hnd _
    refine ⟨st, pl, rfl, hpl, hnd, fun _ _ => rfl, fun _ h => h, ?_⟩
    intro co pid hmem
    exact absurd hmem (List.not_mem_nil _)
  | cons c rest ih =>
    intro st pl hpl hnd hsh
    have hc := hsh c (List.mem_cons_self _ _)
    cases c with
    | vNull => simp [confShapeOk] at hc
    | vBool b => simp [confShapeOk] at hc
    | vInt n => simp [confShapeOk] at hc
    | vStr s => simp [confShapeOk] at hc
    | vList xs => simp [confShapeOk] at hc
    | vObj co =>
      simp only [confShapeOk, Bool.and_eq_true] at hc
      obtain ⟨hc1, hc2⟩ := hc
      cases hpid : alLookup co "player_id" with
      | none => rw [hpid] at hc1; simp at hc1
      | some pidv =>
        rw [hpid] at hc1
        cases pidv with
        | vStr pid =>
          cases hpv : alLookup co "provider" with
          | none => rw [hpv] at hc2; simp at hc2
          | some pvv =>
            rw [hpv] at hc2
            cases pvv with
            | vStr pvs =>
              have hsp : splitPath (CONF_PLAYERS ++ "/" ++ pid) =
                  [CONF_PLAYERS, pid] := splitPath_two _ _ rfl hc1
              by_cases hm : (pvs == iid) = true
              · -- owned by the removed provider: this key is removed
                cases hplpid : alLookup pl pid with
                | some c0 =>
                  have hcr : ctrlRemove st (CONF_PLAYERS ++ "/" ++ pid) =
                      .ok { data := alInsert st.data CONF_PLAYERS
                              (.vObj (alErase pl pid)),
                            saves := st.saves + 1, events := st.events } := by
                    unfold ctrlRemove configRemove
                    rw [hsp, removeGo_two st.data pl CONF_PLAYERS pid c0
                      hpl hplpid]
                    rfl
                  obtain ⟨stF, plF, h1, h2, h3, h4, h5, h6⟩ :=
                    ih { data := alInsert st.data CONF_PLAYERS
                          (.vObj (alErase pl pid)),
                         saves := st.saves + 1, events := st.events }
                      (alErase pl pid) (alLookup_alInsert_self _ _ _)
                      (keysNodup_alErase _ _ hnd)
                      (fun c hmem => hsh c (List.mem_cons_of_mem _ hmem))
                  refine ⟨stF, plF, ?_, h2, h3, ?_, ?_, ?_⟩
                  · rw [sweepGo_step_match iid co rest st _ pid pvs hpv hm
                      hpid hcr]
                    exact h1
                  · intro k2 hk2
                    rw [h4 k2 hk2]
                    exact alLookup_alInsert_ne _ _ _ _ hk2
                  · intro k hk
                    apply h5
                    by_cases hkp : k = pid
                    · subst hkp
                      exact alLookup_alErase_self _ _ hnd
                    · rw [alLookup_alErase_ne _ _ _ hkp]
                      exact hk
                  · intro co2 pid2 hmem hpid2 hpv2
                    rcases List.mem_cons.mp hmem with heq | hmem2
                    · injection heq with he
                      subst he
                      rw [hpid] at hpid2
                      have hpe : pid2 = pid := by
                        simp only [Option.some.injEq] at hpid2
                        injection hpid2.symm
                      rw [hpe]
                      apply h5
                      exact alLookup_alErase_self _ _ hnd
                    · exact h6 co2 pid2 hmem2 hpid2 hpv2
                | none =>
                  have hcr : ctrlRemove st (CONF_PLAYERS ++ "/" ++ pid) =
                      .ok { data := alInsert st.data CONF_PLAYERS
                              (.vObj pl),
                            saves := st.saves, events := st.events } := by
                    unfold ctrlRemove configRemove
                    rw [hsp, removeGo_two_missing st.data pl CONF_PLAYERS
                      pid hpl hplpid]
                    rfl
                  obtain ⟨stF, plF, h1, h2, h3, h4, h5, h6⟩ :=
                    ih { data := alInsert st.data CONF_PLAYERS (.vObj pl),
                         saves := st.saves, events := st.events }
                      pl (alLookup_alInsert_self _ _ _) hnd
                      (fun c hmem => hsh c (List.mem_cons_of_mem _ hmem))
                  refine ⟨stF, plF, ?_, h2, h3, ?_, ?_, ?_⟩
                  · rw [sweepGo_step_match iid co rest st _ pid pvs hpv hm
                      hpid hcr]
                    exact h1
                  · intro k2 hk2
                    rw [h4 k2 hk2]
                    exact alLookup_alInsert_ne _ _ _ _ hk2
                  · exact h5
                  · intro co2 pid2 hmem hpid2 hpv2
                    rcases List.mem_cons.mp hmem with heq | hmem2
                    · injection heq with he
                      subst he
                      rw [hpid] at hpid2
                      have hpe : pid2 = pid := by
                        simp only [Option.some.injEq] at hpid2
                        injection hpid2.symm
                      rw [hpe]
                      exact h5 pid hplpid
                    · exact h6 co2 pid2 hmem2 hpid2 hpv2
              · -- another provider: skipped
                have hmf : (pvs == iid) = false := by
                  cases hb : (pvs == iid) with
                  | true => exact absurd hb hm
                  | false => rfl
                obtain ⟨stF, plF, h1, h2, h3, h4, h5, h6⟩ :=
                  ih st pl hpl hnd
                    (fun c hmem => hsh c (List.mem_cons_of_mem _ hmem))
                refine ⟨stF, plF, ?_, h2, h3, h4, h5, ?_⟩
                · rw [sweepGo_step_skip iid co rest st pvs hpv hmf]
                  exact h1
                · intro co2 pid2 hmem hpid2 hpv2
                  rcases List.mem_cons.mp hmem with heq | hmem2
                  · injection heq with he
                    subst he
                    rw [hpv] at hpv2
                    have : pvs = iid := by
                      simp only [Option.some.injEq] at hpv2
                      injection hpv2
                    rw [this] at hmf
                    simp at hmf
                  · exact h6 co2 pid2 hmem2 hpid2 hpv2
            | vNull => simp at hc2
            | vBool b => simp at hc2
            | vInt n => simp at hc2
            | vList xs => simp at hc2
            | vObj o => simp at hc2
        | vNull => simp at hc1
        | vBool b => simp at hc1
        | vInt n => simp at hc1
        | vList xs => simp at hc1
        | vObj o => simp at hc1

/-- Removing a player-type provider with no owned player left in the
runtime registry removes every stored player config whose `provider` field
names it (addressed by its `player_id` field), and leaves the DSP subtree
untouched. -/
theorem removeProviderConfig_player_sweep (manifests : List Manifest)
    (registry : List RegPlayer) (st : CtrlState) (iid : String)
    (po eo pl : Obj) (m : Manifest) (dom : String)
    (hsl : noSlash iid = true)
    (hpo : alLookup st.data CONF_PROVIDERS = some (.vObj po))
    (heo : alLookup po iid = some (.vObj eo))
    (hdom : alLookup eo "domain" = some (.vStr dom))
    (hmf : findManifest manifests dom = some m)
    (hbuiltin : m.builtin = false)
    (htype : alLookup eo "type" = some (.vStr "player"))
    (hreg : registry.filter (·.provider == iid) = [])
    (hpl : alLookup st.data CONF_PLAYERS = some (.vObj pl))
    (hndpl : keysNodup pl = true)
    (hsh : ∀ c ∈ pl.map Prod.snd, confShapeOk c = true) :
    ∃ stF plF, removeProviderConfig manifests registry st iid =
        (stF, .ok ()) ∧
      alLookup stF.data CONF_PLAYERS = some (.vObj plF) ∧
      (∀ k co, alLookup pl k = some (.vObj co) →
        alLookup co "player_id" = some (.vStr k) →
        alLookup co "provider" = some (.vStr iid) →
        alLookup plF k = none) ∧
      alLookup stF.data CONF_PLAYER_DSP = alLookup st.data CONF_PLAYER_DSP
    := by
  have hsp : splitPath (CONF_PROVIDERS ++ "/" ++ iid) =
      [CONF_PROVIDERS, iid] := splitPath_two _ _ rfl hsl
  have hex : configGet st.data (CONF_PROVIDERS ++ "/" ++ iid) .vNull =
      .ok (.vObj eo) := by
    unfold configGet
    rw [hsp]
    exact getGo_two_obj _ _ _ _ _ _ hpo heo (by simp)
  have htr : pyTruthy (.vObj eo) = true :=
    pyTruthy_obj_of_lookup _ _ _ hdom
  have hcr : ctrlRemove st (CONF_PROVIDERS ++ "/" ++ iid) =
      .ok { data := alInsert st.data CONF_PROVIDERS
              (.vObj (alErase po iid)),
            saves := st.saves + 1, events := st.events } := by
    unfold ctrlRemove configRemove
    rw [hsp, removeGo_two st.data po CONF_PROVIDERS iid (.vObj eo) hpo heo]
    rfl
  have hpl1 : alLookup (alInsert st.data CONF_PROVIDERS
      (.vObj (alErase po iid))) CONF_PLAYERS = some (.vObj pl) := by
    rw [alLookup_alInsert_ne _ _ _ _ (by decide)]
    exact hpl
  have hsnap : playersSnapshot (alInsert st.data CONF_PROVIDERS
      (.vObj (alErase po iid))) = .ok (pl.map Prod.snd) := by
    unfold playersSnapshot configGet
    have hone : splitPath CONF_PLAYERS = [CONF_PLAYERS] := rfl
    rw [hone]
    simp [getGo, hpl1]
  obtain ⟨stF, plF, hsw, h2, h3, h4, h5, h6⟩ :=
    sweepGo_spec iid (pl.map Prod.snd)
      { data := alInsert st.data CONF_PROVIDERS (.vObj (alErase po iid)),
        saves := st.saves + 1, events := st.events }
      pl hpl1 hndpl hsh
  refine ⟨stF, plF, ?_, h2, ?_, ?_⟩
  · unfold removeProviderConfig
    rw [hex]
    simp only [htr, Bool.not_true, Bool.false_eq_true, if_false, hdom, hmf,
      hbuiltin, hcr, htype, hreg, List.foldl_nil, hsnap, hsw]
    rfl
  · intro k co hk hpid hpv
    exact h6 co k (List.mem_map_of_mem Prod.snd (alLookup_mem pl k _ hk))
      hpid hpv
  · rw [h4 CONF_PLAYER_DSP (by decide)]
    exact alLookup_alInsert_ne _ _ _ _ (by decide)

/-- Removing a single player config (with its guard checks passing: the
player is not registered at runtime and its provider is not loaded)
removes the player entity and its DSP entity: reads of both paths yield
the caller's default afterwards. -/
theorem removePlayerConfig_removes (getProv : String → Option ProvInfo)
    (registry : List RegPlayer) (st : CtrlState) (pid : String)
    (pl eo : Obj) (pv : Value)
    (hsl : noSlash pid = true)
    (hpl : alLookup st.data CONF_PLAYERS = some (.vObj pl))
    (heo : alLookup pl pid = some (.vObj eo))
    (hreg : registry.find? (·.player_id == pid) = none)
    (hprovf : alLookup eo "provider" = some pv)
    (hgp : getProv (pyFormat pv) = none)
    (hnd1 : keysNodup st.data = true) (hnd2 : keysNodup pl = true)
    (hdsp : alLookup st.data CONF_PLAYER_DSP = none ∨
      ∃ c, alLookup st.data CONF_PLAYER_DSP = some (.vObj c))
    (hnddsp : ∀ c, alLookup st.data CONF_PLAYER_DSP = some (.vObj c) →
      keysNodup c = true) :
    ∃ stF, removePlayerConfig getProv registry st pid = (stF, .ok ()) ∧
      (∀ d, getGo stF.data [CONF_PLAYERS, pid] d = .ok d) ∧
      (∀ d, getGo stF.data [CONF_PLAYER_DSP, pid] d = .ok d) := by
  have hsp : splitPath (CONF_PLAYERS ++ "/" ++ pid) =
      [CONF_PLAYERS, pid] := splitPath_two _ _ rfl hsl
  have hspd : splitPath (CONF_PLAYER_DSP ++ "/" ++ pid) =
      [CONF_PLAYER_DSP, pid] := splitPath_two _ _ rfl hsl
  have hex : configGet st.data (CONF_PLAYERS ++ "/" ++ pid) .vNull =
      .ok (.vObj eo) := by
    unfold configGet
    rw [hsp]
    exact getGo_two_obj _ _ _ _ _ _ hpl heo (by simp)
  have htr : pyTruthy (.vObj eo) = true :=
    pyTruthy_obj_of_lookup _ _ _ hprovf
  have hrem1 : removeGo st.data [CONF_PLAYERS, pid] =
      .ok (alInsert st.data CONF_PLAYERS (.vObj (alErase pl pid)), true) :=
    removeGo_two st.data pl CONF_PLAYERS pid (.vObj eo) hpl heo
  have hcr1 : ctrlRemove st (CONF_PLAYERS ++ "/" ++ pid) =
      .ok { data := alInsert st.data CONF_PLAYERS
              (.vObj (alErase pl pid)),
            saves := st.saves + 1, events := st.events } := by
    unfold ctrlRemove configRemove
    rw [hsp, hrem1]
    rfl
  have hdsp1 : alLookup (alInsert st.data CONF_PLAYERS
      (.vObj (alErase pl pid))) CONF_PLAYER_DSP =
      alLookup st.data CONF_PLAYER_DSP :=
    alLookup_alInsert_ne _ _ _ _ (by decide)
  obtain ⟨d2, s2, hrem2⟩ := removeGo_two_exists
    (alInsert st.data CONF_PLAYERS (.vObj (alErase pl pid)))
    CONF_PLAYER_DSP pid (by rw [hdsp1]; exact hdsp)
  have hcr2 : ctrlRemove
      { data := alInsert st.data CONF_PLAYERS (.vObj (alErase pl pid)),
        saves := st.saves + 1, events := st.events }
      (CONF_PLAYER_DSP ++ "/" ++ pid) =
      .ok { data := d2, saves := st.saves + 1 + (if s2 then 1 else 0),
            events := st.events } := by
    unfold ctrlRemove configRemove
    rw [hspd]
    simp only [hrem2]
  have hnd1a : pathNodup st.data [CONF_PLAYERS, pid] = true := by
    apply pathNodup_pair _ _ _ hnd1
    intro c hc
    rw [hpl] at hc
    simp only [Option.some.injEq, Value.vObj.injEq] at hc
    rw [← hc]
    exact hnd2
  have hnd1b : pathNodup (alInsert st.data CONF_PLAYERS
      (.vObj (alErase pl pid))) [CONF_PLAYER_DSP, pid] = true := by
    apply pathNodup_pair _ _ _ (keysNodup_alInsert _ _ _ hnd1)
    intro c hc
    rw [hdsp1] at hc
    exact hnddsp c hc
  refine ⟨{ data := d2, saves := st.saves + 1 + (if s2 then 1 else 0),
            events := st.events }, ?_, ?_, ?_⟩
  · unfold removePlayerConfig
    rw [hex]
    simp only [htr, Bool.not_true, Bool.false_eq_true, if_false, hreg,
      hprovf, hgp, Option.map_none, Option.getD_none, Option.isSome_none,
      Bool.false_and, removePlayerStoreOps, hcr1, hcr2]
    rfl
  · intro d
    have hg1 : getGo (alInsert st.data CONF_PLAYERS
        (.vObj (alErase pl pid))) [CONF_PLAYERS, pid] d = .ok d :=
      remove_get [CONF_PLAYERS, pid] st.data _ true hnd1a hrem1 d
    have hfr : alLookup d2 CONF_PLAYERS =
        alLookup (alInsert st.data CONF_PLAYERS
          (.vObj (alErase pl pid))) CONF_PLAYERS :=
      removeGo_frame _ _ _ _ _ hrem2 CONF_PLAYERS (by decide)
    rw [getGo_cons_congr d2 (alInsert st.data CONF_PLAYERS
      (.vObj (alErase pl pid))) CONF_PLAYERS [pid] d hfr]
    exact hg1
  · intro d
    exact remove_get [CONF_PLAYER_DSP, pid]
      (alInsert st.data CONF_PLAYERS (.vObj (alErase pl pid)))
      d2 s2 hnd1b hrem2 d

/-- A player-type provider manifest for concrete instantiations. -/
def playerManifest : Manifest :=
  { domain := "d1", name := "D1", ptype := "player", multi_instance := false,
    depends_on := none, builtin := false, allow_disable := true }

/-- A store with one player-type provider `p1`, one player config `pl1`
owned by it, and a DSP config for `pl1`. -/
def cexStore : Obj :=
  [(CONF_PROVIDERS, .vObj [("p1", .vObj
      [("domain", .vStr "d1"), ("type", .vStr "player"),
       ("instance_id", .vStr "p1")])]),
   (CONF_PLAYERS, .vObj [("pl1", .vObj
      [("provider", .vStr "p1"), ("player_id", .vStr "pl1")])]),
   (CONF_PLAYER_DSP, .vObj [("pl1", .vObj [("enabled", .vBool true)])])]

/-- C5 (counterexample): removing a player-type provider does not remove
every DSP entity keyed by its players.  Here the owned player `pl1` is not
in the runtime player registry (the provider was not loaded), so it is
removed by the fallback sweep, which deletes only the player entity: the
removal succeeds, the player config is gone, but the DSP entity
`player-dsp/pl1` is still stored afterwards. -/
theorem remove_provider_leaves_orphan_dsp_cex :
    removeProviderConfig [playerManifest] []
      { data := cexStore, saves := 0, events := 0 } "p1" =
      ({ data := [(CONF_PROVIDERS, .vObj []), (CONF_PLAYERS, .vObj []),
          (CONF_PLAYER_DSP, .vObj
            [("pl1", .vObj [("enabled", .vBool true)])])],
         saves := 2, events := 0 }, .ok ()) ∧
    pathStored [(CONF_PROVIDERS, .vObj []), (CONF_PLAYERS, .vObj []),
        (CONF_PLAYER_DSP, .vObj [("pl1", .vObj [("enabled", .vBool true)])])]
        [CONF_PLAYER_DSP, "pl1"] =
      some (.vObj [("enabled", .vBool true)]) :=
  ⟨rfl, rfl⟩

/-- C5 (amended): removing a player-type provider removes every stored
player entity whose `provider` field equals the removed instance id; DSP
entities are removed only through the player-manager path for players
present in the runtime registry — when no owned player is registered, the
fallback sweep deletes the player entities alone and the DSP subtree is
left exactly as it was.  Removing a single player config does remove that
player's DSP config along with the player entity. -/
theorem remove_cascade_amended :
    (∀ (manifests : List Manifest) (registry : List RegPlayer)
      (st : CtrlState) (iid : String) (po eo pl : Obj) (m : Manifest)
      (dom : String),
      noSlash iid = true →
      alLookup st.data CONF_PROVIDERS = some (.vObj po) →
      alLookup po iid = some (.vObj eo) →
      alLookup eo "domain" = some (.vStr dom) →
      findManifest manifests dom = some m →
      m.builtin = false →
      alLookup eo "type" = some (.vStr "player") →
      registry.filter (·.provider == iid) = [] →
      alLookup st.data CONF_PLAYERS = some (.vObj pl) →
      keysNodup pl = true →
      (∀ c ∈ pl.map Prod.snd, confShapeOk c = true) →
      ∃ stF plF, removeProviderConfig manifests registry st iid =
          (stF, .ok ()) ∧
        alLookup stF.data CONF_PLAYERS = some (.vObj plF) ∧
        (∀ k co, alLookup pl k = some (.vObj co) →
          alLookup co "player_id" = some (.vStr k) →
          alLookup co "provider" = some (.vStr iid) →
          alLookup plF k = none) ∧
        alLookup stF.data CONF_PLAYER_DSP =
          alLookup st.data CONF_PLAYER_DSP) ∧
    (∀ (getProv : String → Option ProvInfo) (registry : List RegPlayer)
      (st : CtrlState) (pid : String) (pl eo : Obj) (pv : Value),
      noSlash pid = true →
      alLookup st.data CONF_PLAYERS = some (.vObj pl) →
      alLookup pl pid = some (.vObj eo) →
      registry.find? (·.player_id == pid) = none →
      alLookup eo "provider" = some pv →
      getProv (pyFormat pv) = none →
      keysNodup st.data = true → keysNodup pl = true →
      (alLookup st.data CONF_PLAYER_DSP = none ∨
        ∃ c, alLookup st.data CONF_PLAYER_DSP = some (.vObj c)) →
      (∀ c, alLookup st.data CONF_PLAYER_DSP = some (.vObj c) →
        keysNodup c = true) →
      ∃ stF, removePlayerConfig getProv registry st pid = (stF, .ok ()) ∧
        (∀ d, getGo stF.data [CONF_PLAYERS, pid] d = .ok d) ∧
        (∀ d, getGo stF.data [CONF_PLAYER_DSP, pid] d = .ok d)) :=
  ⟨fun manifests registry st iid po eo pl m dom h1 h2 h3 h4 h5 h6 h7 h8 h9
      h10 h11 =>
    removeProviderConfig_player_sweep manifests registry st iid po eo pl m
      dom h1 h2 h3 h4 h5 h6 h7 h8 h9 h10 h11,
   fun getProv registry st pid pl eo pv h1 h2 h3 h4 h5 h6 h7 h8 h9 h10 =>
    removePlayerConfig_removes getProv registry st pid pl eo pv h1 h2 h3
      h4 h5 h6 h7 h8 h9 h10⟩

theorem remove_cascade_amended_witness :
    (∃ stF plF, removeProviderConfig [playerManifest] []
        { data := cexStore, saves := 0, events := 0 } "p1" =
        (stF, .ok ()) ∧
      alLookup stF.data CONF_PLAYERS = some (.vObj plF) ∧
      (∀ k co, alLookup [("pl1", Value.vObj
          [("provider", Value.vStr "p1"),
           ("player_id", Value.vStr "pl1")])] k = some (.vObj co) →
        alLookup co "player_id" = some (.vStr k) →
        alLookup co "provider" = some (.vStr "p1") →
        alLookup plF k = none) ∧
      alLookup stF.data CONF_PLAYER_DSP =
        alLookup cexStore CONF_PLAYER_DSP) ∧
    (∃ stF, removePlayerConfig (fun _ => none) []
        { data := cexStore, saves := 0, events := 0 } "pl1" =
        (stF, .ok ()) ∧
      (∀ d, getGo stF.data [CONF_PLAYERS, "pl1"] d = .ok d) ∧
      (∀ d, getGo stF.data [CONF_PLAYER_DSP, "pl1"] d = .ok d)) :=
  ⟨remove_cascade_amended.1 [playerManifest] []
      { data := cexStore, saves := 0, events := 0 } "p1"
      [("p1", Value.vObj [("domain", Value.vStr "d1"),
        ("type", Value.vStr "player"), ("instance_id", Value.vStr "p1")])]
      [("domain", Value.vStr "d1"), ("type", Value.vStr "player"),
       ("instance_id", Value.vStr "p1")]
      [("pl1", Value.vObj [("provider", Value.vStr "p1"),
        ("player_id", Value.vStr "pl1")])]
      playerManifest "d1" rfl rfl rfl rfl rfl rfl rfl rfl rfl rfl
      (by
        intro c hc
        have hc2 : c ∈ [Value.vObj [("provider", Value.vStr "p1"),
            ("player_id", Value.vStr "pl1")]] := hc
        rw [List.mem_singleton] at hc2
        subst hc2
        rfl),
   remove_cascade_amended.2 (fun _ => none) []
      { data := cexStore, saves := 0, events := 0 } "pl1"
      [("pl1", Value.vObj [("provider", Value.vStr "p1"),
        ("player_id", Value.vStr "pl1")])]
      [("provider", Value.vStr "p1"), ("player_id", Value.vStr "pl1")]
      (Value.vStr "p1") rfl rfl rfl rfl rfl rfl rfl rfl
      (Or.inr ⟨[("pl1", Value.vObj [("enabled", Value.vBool true)])], rfl⟩)
      (by
        intro c hc
        have hc2 : some (Value.vObj
            [("pl1", Value.vObj [("enabled", Value.vBool true)])]) =
            some (Value.vObj c) := hc
        simp only [Option.some.injEq, Value.vObj.injEq] at hc2
        rw [← hc2]
        rfl)⟩
